import Mathlib

/-!
Verification of the crawl-then-structure pipeline of the `web-scraper`
repository (`src/crawler.py`, `src/ai_converter.py`, `src/scrape_to_json.py`)
against its natural-language specification.

Python strings are modelled as Lean `String` (a sequence of characters),
with the relevant `str` methods (`strip`, `startswith`, `endswith`,
slicing, `lower`, substring containment) implemented over `String.data`.
Python `set` is modelled as a duplicate-free `List String` maintained by
`setInsert`.  Machine-external collaborators are modelled as oracles:
the page fetcher as `String → Option PageRecord` (`None` covers an HTTP
status >= 400, a missing response, and a raised transport error, exactly
the cases where `_fetch_page` returns `None`), the AI text generator as a
per-call outcome, and `json.loads` as a parameter `String → Except String Json`
(`.error e` models a raised `json.JSONDecodeError` with message `e`).
-/

/-- Python `str.strip()` (whitespace from both ends), on `String.data`. -/
def pyStrip (s : String) : String :=
  ⟨((s.data.dropWhile Char.isWhitespace).reverse.dropWhile Char.isWhitespace).reverse⟩

/-- Python `s.startswith(p)`. -/
def pyStartsWith (s p : String) : Bool :=
  p.data.isPrefixOf s.data

/-- Python `s.endswith(p)`. -/
def pyEndsWith (s p : String) : Bool :=
  p.data.isSuffixOf s.data

/-- Python `s[n:]`. -/
def pyDrop (s : String) (n : Nat) : String :=
  ⟨s.data.drop n⟩

/-- Python `s[:-n]` (for the guarded uses in the source, where `len(s) >= n`). -/
def pyDropRight (s : String) (n : Nat) : String :=
  ⟨s.data.take (s.data.length - n)⟩

/-- Auxiliary recursion for `pyContains`: check `p` as a prefix of every
suffix of `l`. -/
def pyContainsAux (l p : List Char) : Bool :=
  match l with
  | [] => p.isEmpty
  | _ :: rest => p.isPrefixOf l || pyContainsAux rest p

/-- Python `p in s` substring containment, used for the include/exclude
URL patterns of `WebsiteCrawler._should_crawl`. -/
def pyContains (s p : String) : Bool :=
  pyContainsAux s.data p.data

/-- Python `s.lower()` (ASCII-relevant part), on `String.data`. -/
def pyLower (s : String) : String :=
  ⟨s.data.map Char.toLower⟩

/-- The remainder of `l` after the first occurrence of `sep`, if any. -/
def afterFirst (l sep : List Char) : Option (List Char) :=
  match l with
  | [] => if sep.isEmpty then some [] else none
  | c :: rest => if sep.isPrefixOf (c :: rest) then some ((c :: rest).drop sep.length)
                 else afterFirst rest sep

/-- Model of `urllib.parse.urlparse(url).netloc` for the absolute
`scheme://host/path` URLs the crawler works with: the text between the
first `://` and the following `/`, `?` or `#` (empty when no `://`). -/
def netloc (url : String) : String :=
  match afterFirst url.data ("://".data) with
  | some rest => ⟨rest.takeWhile (fun c => !(c == '/' || c == '?' || c == '#'))⟩
  | none => ""

/-- The structured extract of one fetched page, as built by
`WebsiteCrawler._fetch_page` (`page_data`). `fetched_at` models the
`time.time()` timestamp. -/
structure PageRecord where
  url : String
  url_hash : String
  title : String
  text_content : String
  headings : List (Nat × String)
  tables : List (List (List String))
  links : List String
  fetched_at : Nat
deriving DecidableEq

/-- The constructor parameters of `WebsiteCrawler` that the admission
predicate and the traversal read (`base_url` retained to derive
`base_domain = urlparse(base_url).netloc` as in `__init__`). -/
structure CrawlerConfig where
  baseUrl : String
  maxDepth : Nat
  sameDomainOnly : Bool
  maxPages : Nat
  includePatterns : List String
  excludePatterns : List String
deriving DecidableEq

/-- `self.base_domain` of `WebsiteCrawler.__init__`. -/
def CrawlerConfig.baseDomain (cfg : CrawlerConfig) : String :=
  netloc cfg.baseUrl

/-- Python `set.add`: insert a URL into the visited set, modelled as a
duplicate-free list. -/
def setInsert (u : String) (l : List String) : List String :=
  if u ∈ l then l else u :: l

/-- The `skip_extensions` list of `WebsiteCrawler._should_crawl`. -/
def skipExtensions : List String :=
  [".pdf", ".jpg", ".png", ".gif", ".css", ".js", ".zip", ".exe"]

/-- `WebsiteCrawler._should_crawl`, line for line: already-visited check,
max-pages budget, domain restriction, exclude patterns, include patterns,
and the non-content extension filter. -/
def shouldCrawl (cfg : CrawlerConfig) (visited : List String) (url : String) : Bool :=
  if url ∈ visited then false
  else if cfg.maxPages ≤ visited.length then false
  else if cfg.sameDomainOnly && !(netloc url == cfg.baseDomain) then false
  else if cfg.excludePatterns.any (fun p => pyContains url p) then false
  else if !cfg.includePatterns.isEmpty && !(cfg.includePatterns.any (fun p => pyContains url p)) then false
  else if skipExtensions.any (fun ext => pyEndsWith (pyLower url) ext) then false
  else true

/-- The two program points where `_should_crawl` is consulted: the guard
of the link loop in `_crawl_recursive` (line 219) and the entry of
`_crawl_recursive` itself (line 186). -/
inductive EvalSite where
  | guard
  | entry
deriving DecidableEq

/-- Observable events of one crawl session: an evaluation of the
admission predicate with its result, a fetch attempt (recorded with the
visited set just before the URL was marked visited), and a write of
`json/crawl_progress.json` (`total_pages`, `visited_urls`, `last_url`). -/
inductive CrawlEvent where
  | eval (site : EvalSite) (url : String) (res : Bool)
  | fetchAttempt (url : String) (visitedBefore : List String)
  | checkpoint (totalPages : Nat) (visitedUrls : List String) (lastUrl : String)
deriving DecidableEq

/-- The mutable state of a `WebsiteCrawler` instance (`visited_urls`,
`scraped_data`) together with the event trace of the session. -/
structure CrawlState where
  visited : List String
  scraped : List PageRecord
  trace : List CrawlEvent
deriving DecidableEq

/-- `WebsiteCrawler._crawl_recursive`.  `fetch` is the external page
fetcher (`_fetch_page`); `fuel` bounds the recursion depth of the model
(the Python recursion is bounded by `max_depth` in every reachable call,
and every theorem below holds for every `fuel`).  Order of operations as
in the source: admission check, depth check, mark visited, fetch, store
page data, write the progress checkpoint, then follow the links of the
page, re-checking admission for each link before recursing. -/
def crawlRec (cfg : CrawlerConfig) (fetch : String → Option PageRecord) :
    Nat → CrawlState → String → Nat → CrawlState
  | 0, st, _, _ => st
  | Nat.succ fuel, st, url, depth =>
    let r := shouldCrawl cfg st.visited url
    let st1 : CrawlState := { st with trace := st.trace ++ [CrawlEvent.eval EvalSite.entry url r] }
    if r = true then
      if cfg.maxDepth < depth then st1
      else
        let st2 : CrawlState :=
          { st1 with visited := setInsert url st1.visited
                     trace := st1.trace ++ [CrawlEvent.fetchAttempt url st1.visited] }
        match fetch url with
        | none => st2
        | some pd =>
          let st3 : CrawlState := { st2 with scraped := st2.scraped ++ [pd] }
          let st4 : CrawlState :=
            { st3 with trace := st3.trace ++ [CrawlEvent.checkpoint st3.scraped.length st3.visited url] }
          if depth < cfg.maxDepth then
            pd.links.foldl (fun s link =>
              let r2 := shouldCrawl cfg s.visited link
              let s1 : CrawlState := { s with trace := s.trace ++ [CrawlEvent.eval EvalSite.guard link r2] }
              if r2 = true then crawlRec cfg fetch fuel s1 link (depth + 1) else s1) st4
          else st4
    else st1
termination_by structural fuel _ _ _ => fuel

/-- `WebsiteCrawler.crawl`: start the traversal at `base_url`, depth 0,
with empty visited set and no scraped data. -/
def crawl (cfg : CrawlerConfig) (fetch : String → Option PageRecord) (fuel : Nat) : CrawlState :=
  crawlRec cfg fetch fuel ⟨[], [], []⟩ cfg.baseUrl 0

/-- JSON values, as produced by `json.loads`.  Numbers are modelled as
integers (the claims only exercise integral numbers); objects are
association lists in insertion order, matching Python `dict` semantics. -/
inductive Json where
  | null
  | bool (b : Bool)
  | num (n : Int)
  | str (s : String)
  | arr (elems : List Json)
  | obj (fields : List (String × Json))

mutual

/-- Decidable structural equality on `Json`, by hand because `deriving`
does not handle the nested inductive. -/
def Json.decEq : (a b : Json) → Decidable (a = b)
  | .null, .null => isTrue rfl
  | .null, .bool _ => isFalse (by intro hx; exact Json.noConfusion hx)
  | .null, .num _ => isFalse (by intro hx; exact Json.noConfusion hx)
  | .null, .str _ => isFalse (by intro hx; exact Json.noConfusion hx)
  | .null, .arr _ => isFalse (by intro hx; exact Json.noConfusion hx)
  | .null, .obj _ => isFalse (by intro hx; exact Json.noConfusion hx)
  | .bool _, .null => isFalse (by intro hx; exact Json.noConfusion hx)
  | .bool a, .bool b =>
    if h : a = b then isTrue (by rw [h]) else isFalse (by intro hx; injection hx; contradiction)
  | .bool _, .num _ => isFalse (by intro hx; exact Json.noConfusion hx)
  | .bool _, .str _ => isFalse (by intro hx; exact Json.noConfusion hx)
  | .bool _, .arr _ => isFalse (by intro hx; exact Json.noConfusion hx)
  | .bool _, .obj _ => isFalse (by intro hx; exact Json.noConfusion hx)
  | .num _, .null => isFalse (by intro hx; exact Json.noConfusion hx)
  | .num _, .bool _ => isFalse (by intro hx; exact Json.noConfusion hx)
  | .num a, .num b =>
    if h : a = b then isTrue (by rw [h]) else isFalse (by intro hx; injection hx; contradiction)
  | .num _, .str _ => isFalse (by intro hx; exact Json.noConfusion hx)
  | .num _, .arr _ => isFalse (by intro hx; exact Json.noConfusion hx)
  | .num _, .obj _ => isFalse (by intro hx; exact Json.noConfusion hx)
  | .str _, .null => isFalse (by intro hx; exact Json.noConfusion hx)
  | .str _, .bool _ => isFalse (by intro hx; exact Json.noConfusion hx)
  | .str _, .num _ => isFalse (by intro hx; exact Json.noConfusion hx)
  | .str a, .str b =>
    if h : a = b then isTrue (by rw [h]) else isFalse (by intro hx; injection hx; contradiction)
  | .str _, .arr _ => isFalse (by intro hx; exact Json.noConfusion hx)
  | .str _, .obj _ => isFalse (by intro hx; exact Json.noConfusion hx)
  | .arr _, .null => isFalse (by intro hx; exact Json.noConfusion hx)
  | .arr _, .bool _ => isFalse (by intro hx; exact Json.noConfusion hx)
  | .arr _, .num _ => isFalse (by intro hx; exact Json.noConfusion hx)
  | .arr _, .str _ => isFalse (by intro hx; exact Json.noConfusion hx)
  | .arr a, .arr b =>
    match Json.decEqList a b with
    | isTrue h => isTrue (by rw [h])
    | isFalse h => isFalse (by intro hx; injection hx; contradiction)
  | .arr _, .obj _ => isFalse (by intro hx; exact Json.noConfusion hx)
  | .obj _, .null => isFalse (by intro hx; exact Json.noConfusion hx)
  | .obj _, .bool _ => isFalse (by intro hx; exact Json.noConfusion hx)
  | .obj _, .num _ => isFalse (by intro hx; exact Json.noConfusion hx)
  | .obj _, .str _ => isFalse (by intro hx; exact Json.noConfusion hx)
  | .obj _, .arr _ => isFalse (by intro hx; exact Json.noConfusion hx)
  | .obj a, .obj b =>
    match Json.decEqFields a b with
    | isTrue h => isTrue (by rw [h])
    | isFalse h => isFalse (by intro hx; injection hx; contradiction)

/-- Decidable equality of `Json` lists. -/
def Json.decEqList : (xs ys : List Json) → Decidable (xs = ys)
  | [], [] => isTrue rfl
  | [], _ :: _ => isFalse (by intro hx; exact List.noConfusion hx)
  | _ :: _, [] => isFalse (by intro hx; exact List.noConfusion hx)
  | x :: xs, y :: ys =>
    match Json.decEq x y, Json.decEqList xs ys with
    | isTrue h1, isTrue h2 => isTrue (by rw [h1, h2])
    | isFalse h1, _ => isFalse (by intro hx; injection hx; contradiction)
    | _, isFalse h2 => isFalse (by intro hx; injection hx; contradiction)

/-- Decidable equality of `Json` association lists. -/
def Json.decEqFields : (xs ys : List (String × Json)) → Decidable (xs = ys)
  | [], [] => isTrue rfl
  | [], _ :: _ => isFalse (by intro hx; exact List.noConfusion hx)
  | _ :: _, [] => isFalse (by intro hx; exact List.noConfusion hx)
  | (k, v) :: xs, (k', v') :: ys =>
    match String.decEq k k', Json.decEq v v', Json.decEqFields xs ys with
    | isTrue h0, isTrue h1, isTrue h2 => isTrue (by rw [h0, h1, h2])
    | isFalse h0, _, _ => isFalse (by intro hx; injection hx with hp hr; injection hp; contradiction)
    | _, isFalse h1, _ => isFalse (by intro hx; injection hx with hp hr; injection hp; contradiction)
    | _, _, isFalse h2 => isFalse (by intro hx; injection hx; contradiction)

end

instance : DecidableEq Json := Json.decEq

/-- Python truthiness of a decoded JSON value (`if structured:` in
`convert_all_pages`): `None`, `False`, `0`, `""`, `[]` and `{}` are
falsy, everything else truthy. -/
def Json.truthy : Json → Bool
  | .null => false
  | .bool b => b
  | .num n => !(n == 0)
  | .str s => !(s == "")
  | .arr elems => !elems.isEmpty
  | .obj fields => !fields.isEmpty

/-- Key lookup in a JSON object (first matching key; `none` on
non-objects). -/
def lookupFields : List (String × Json) → String → Option Json
  | [], _ => none
  | (k', v) :: rest, k => if k' == k then some v else lookupFields rest k

/-- Key lookup in a JSON value: association-list lookup on objects,
`none` on anything else. -/
def Json.lookup : Json → String → Option Json
  | .obj fields, k => lookupFields fields k
  | _, _ => none

/-- Python `d[k] = v` on an association-list object: replace the first
binding of `k` in place, or append a new binding at the end. -/
def objSet : List (String × Json) → String → Json → List (String × Json)
  | [], k, v => [(k, v)]
  | (k', v') :: rest, k, v =>
    if k' == k then (k, v) :: rest else (k', v') :: objSet rest k v

/-- The markdown-fence stripping performed identically in
`AIDataConverter.analyze_data_structure` (lines 243-249) and
`AIDataConverter.convert_page_to_structured_data` (lines 320-326):
`strip()`, drop a leading ` ```json ` (7 chars) or bare ` ``` ` (3 chars),
then drop a trailing ` ``` ` (3 chars) if present. -/
def stripCodeFences (s : String) : String :=
  let r := pyStrip s
  let r := if pyStartsWith r "```json" then pyDrop r 7
           else if pyStartsWith r "```" then pyDrop r 3
           else r
  if pyEndsWith r "```" then pyDropRight r 3 else r

/-- Fence stripping followed by `json.loads(response.strip())`, the shared
two-stage parse of both converter entry points.  `loads` is the external
`json.loads`; `.error e` models a raised `json.JSONDecodeError` with
message `e`. -/
def extractJson (loads : String → Except String Json) (s : String) : Except String Json :=
  loads (pyStrip (stripCodeFences s))

/-- `AIDataConverter.analyze_data_structure`, from the provider call on:
`resp` is the value of `self.provider.generate_response(prompt, ...)`
(`none` models `None`).  A falsy response (`None` or the empty string)
yields the fixed empty analysis; a decode failure yields the empty
analysis with the exception message in `notes`; otherwise the decoded
object is returned as is. -/
def analyzeDataStructure (loads : String → Except String Json) (resp : Option String) : Json :=
  match resp with
  | none =>
    Json.obj [("content_type", Json.str "unknown"), ("entities", Json.arr []),
              ("schema", Json.obj []), ("indexes", Json.arr []),
              ("notes", Json.str "Analysis failed")]
  | some response =>
    if response == "" then
      Json.obj [("content_type", Json.str "unknown"), ("entities", Json.arr []),
                ("schema", Json.obj []), ("indexes", Json.arr []),
                ("notes", Json.str "Analysis failed")]
    else
      match extractJson loads response with
      | Except.ok analysis => analysis
      | Except.error e =>
        Json.obj [("content_type", Json.str "unknown"), ("entities", Json.arr []),
                  ("schema", Json.obj []), ("indexes", Json.arr []),
                  ("notes", Json.str ("Failed to parse analysis: " ++ e))]

/-- Outcome of one `generate_response` provider call inside
`convert_all_pages`' try block: the call raises, or returns `None`/text.
(The shipped providers catch their own errors and return `None`; the
raise case models a provider violating that contract, which
`convert_all_pages` also tolerates.) -/
inductive GenOutcome where
  | raised
  | ret (resp : Option String)
deriving DecidableEq

/-- `AIDataConverter.convert_page_to_structured_data`, from the provider
call on: `None`/empty response gives `None`; otherwise strip fences and
decode, returning `None` on a decode failure (the caught
`json.JSONDecodeError`). -/
def convertPageToStructuredData (loads : String → Except String Json)
    (resp : Option String) : Option Json :=
  match resp with
  | none => none
  | some response =>
    if response == "" then none
    else
      match extractJson loads response with
      | Except.ok structured => some structured
      | Except.error _ => none

/-- The `_metadata` provenance block attached to a successful conversion
(lines 368-373 of `src/ai_converter.py`). -/
def metaObj (page : PageRecord) : Json :=
  Json.obj [("source_url", Json.str page.url), ("title", Json.str page.title),
            ("scraped_at", Json.num page.fetched_at), ("url_hash", Json.str page.url_hash)]

/-- `structured['_metadata'] = {...}`: set the key on a JSON object;
on a non-object (a decoded list, string, number...) Python raises a
`TypeError`, modelled as `none` (the exception is caught by the
enclosing `except` of `convert_all_pages`). -/
def setMeta (j : Json) (page : PageRecord) : Option Json :=
  match j with
  | Json.obj fields => some (Json.obj (objSet fields "_metadata" (metaObj page)))
  | _ => none

/-- The body of one iteration of the `convert_all_pages` loop (lines
363-381): on success append the record (with `_metadata`) to
`structured_data`, otherwise append the page URL to `failed_urls`. -/
def convertStep (loads : String → Except String Json) (g : GenOutcome)
    (page : PageRecord) (acc : List Json × List String) : List Json × List String :=
  match g with
  | GenOutcome.raised => (acc.1, acc.2 ++ [page.url])
  | GenOutcome.ret resp =>
    match convertPageToStructuredData loads resp with
    | some structured =>
      if structured.truthy then
        match setMeta structured page with
        | some record => (acc.1 ++ [record], acc.2)
        | none => (acc.1, acc.2 ++ [page.url])
      else (acc.1, acc.2 ++ [page.url])
    | none => (acc.1, acc.2 ++ [page.url])

/-- The per-page result of the loop body, as a pure function: `some r`
when the page contributes record `r` to `structured_data`, `none` when
its URL goes to `failed_urls`.  (Characterizes `convertStep`.) -/
def processPage (loads : String → Except String Json) (g : GenOutcome)
    (page : PageRecord) : Option Json :=
  match g with
  | GenOutcome.raised => none
  | GenOutcome.ret resp =>
    match convertPageToStructuredData loads resp with
    | some structured => if structured.truthy then setMeta structured page else none
    | none => none

/-- Result of a `convert_all_pages` run: the final `structured_data`
list, the final `failed_urls` list, and the sequence of `_save_output`
writes, each recorded as (number of pages processed so far, full file
content written).  Every write replaces the file (`open(..., 'w')`). -/
structure ConvResult where
  structuredData : List Json
  failedUrls : List String
  saves : List (Nat × List Json)
deriving DecidableEq

/-- The loop of `AIDataConverter.convert_all_pages` (lines 360-390):
pages processed strictly in input order with a 1-based counter `i`;
after every page, if `i % batch_size == 0`, the accumulated
`structured_data` is flushed to the output file. `outcomes i` is the
provider-call outcome for page `i`. -/
def convertAllPagesAux (loads : String → Except String Json)
    (outcomes : Nat → GenOutcome) (batchSize : Nat) :
    List PageRecord → Nat → List Json → List String → List (Nat × List Json) → ConvResult
  | [], _, succ, failed, saves => ⟨succ, failed, saves⟩
  | page :: rest, i, succ, failed, saves =>
    let acc := convertStep loads (outcomes i) page (succ, failed)
    let saves := if i % batchSize == 0 then saves ++ [(i, acc.1)] else saves
    convertAllPagesAux loads outcomes batchSize rest (i + 1) acc.1 acc.2 saves

/-- `AIDataConverter.convert_all_pages`: run the loop from page 1 with
empty accumulators, then perform the unconditional final
`self._save_output(output_file, structured_data)` (line 393). -/
def convertAllPages (loads : String → Except String Json)
    (outcomes : Nat → GenOutcome) (pages : List PageRecord) (batchSize : Nat) : ConvResult :=
  let res := convertAllPagesAux loads outcomes batchSize pages 1 [] [] []
  ⟨res.structuredData, res.failedUrls, res.saves ++ [(pages.length, res.structuredData)]⟩

/-- Pair every element of a list with its position, counting from `i`
(the 1-based `enumerate(scraped_data, 1)` of `convert_all_pages`). -/
def withIdx {α : Type} (i : Nat) : List α → List (Nat × α)
  | [] => []
  | a :: l => (i, a) :: withIdx (i + 1) l

/-- Specification function: the records appended to `structured_data`
by the loop over `pages` starting at counter `i`. -/
def convSucc (loads : String → Except String Json) (outcomes : Nat → GenOutcome)
    (i : Nat) : List PageRecord → List Json
  | [] => []
  | page :: rest =>
    (processPage loads (outcomes i) page).toList ++ convSucc loads outcomes (i + 1) rest

/-- Specification function: the URLs appended to `failed_urls` by the
loop over `pages` starting at counter `i`. -/
def convFail (loads : String → Except String Json) (outcomes : Nat → GenOutcome)
    (i : Nat) : List PageRecord → List String
  | [] => []
  | page :: rest =>
    (match processPage loads (outcomes i) page with
     | some _ => []
     | none => [page.url]) ++ convFail loads outcomes (i + 1) rest

/-- Specification function: the in-loop checkpoint writes produced over
`pages` starting at counter `i` with `succ` already accumulated. -/
def convSaves (loads : String → Except String Json) (outcomes : Nat → GenOutcome)
    (batchSize : Nat) (i : Nat) (succ : List Json) : List PageRecord → List (Nat × List Json)
  | [] => []
  | page :: rest =>
    let succ2 := succ ++ (processPage loads (outcomes i) page).toList
    (if i % batchSize == 0 then [(i, succ2)] else []) ++
      convSaves loads outcomes batchSize (i + 1) succ2 rest

/-- Python truthiness of an `Optional[str]` (`if not self.api_key`):
`None` and the empty string are falsy. -/
def pyStrFalsy : Option String → Bool
  | none => true
  | some s => s == ""

/-- Python `a or b` on `Optional[str]` values
(`api_key or os.environ.get(...)`). -/
def pyStrOr (a b : Option String) : Option String :=
  match a with
  | some s => if s == "" then b else some s
  | none => b

/-- `AIDataConverter.__init__` together with the four provider
constructors (`src/ai_converter.py` lines 30-43, 56-68, 88-100, 120-136,
158-179): lower-case the provider name, select the provider, resolve the
credential from the explicit argument with environment fallback, and
raise `ValueError` when the credential is falsy or the name unknown.
`env` models `os.environ.get`.  (Import errors of missing SDK packages
are outside the model; the quote characters of the original `ValueError`
messages are omitted.)  Returns the normalized provider name. -/
def initProvider (name : String) (apiKeyArg : Option String)
    (env : String → Option String) : Except String String :=
  let n := pyLower name
  if n == "gemini" then
    if pyStrFalsy (pyStrOr apiKeyArg (env "GOOGLE_API_KEY")) then
      Except.error "GOOGLE_API_KEY environment variable not set"
    else Except.ok n
  else if n == "claude" then
    if pyStrFalsy (pyStrOr apiKeyArg (env "ANTHROPIC_API_KEY")) then
      Except.error "ANTHROPIC_API_KEY environment variable not set"
    else Except.ok n
  else if n == "openai" then
    if pyStrFalsy (pyStrOr apiKeyArg (env "OPENAI_API_KEY")) then
      Except.error "OPENAI_API_KEY environment variable not set"
    else Except.ok n
  else if n == "grok" then
    if pyStrFalsy (pyStrOr apiKeyArg (env "XAI_API_KEY")) then
      Except.error "XAI_API_KEY environment variable not set"
    else Except.ok n
  else Except.error ("Unknown provider: " ++ name ++ ". Use gemini, claude, openai, or grok")

/-- What reading the `--schema` file can yield in `convert_to_json`
(`src/scrape_to_json.py` lines 191-226): no `--schema` argument, a
`FileNotFoundError`, a `json.JSONDecodeError` (malformed JSON), or a
successfully decoded value. -/
inductive SchemaFileState where
  | absent
  | missing
  | malformed (e : String)
  | loaded (j : Json)
deriving DecidableEq

/-- The schema-selection logic of `convert_to_json`
(`src/scrape_to_json.py` lines 190-226): a loaded file with a `schema`
key is used as the full analysis, a loaded file without one is wrapped
as the schema itself; a missing or malformed file falls back to
`converter.analyze_data_structure` (here `autoAnalysis`), as does the
absence of `--schema`. -/
def resolveSchemaAnalysis (autoAnalysis : Json) (file : SchemaFileState) : Json :=
  match file with
  | SchemaFileState.absent => autoAnalysis
  | SchemaFileState.missing => autoAnalysis
  | SchemaFileState.malformed _ => autoAnalysis
  | SchemaFileState.loaded j =>
    if (Json.lookup j "schema").isSome then j
    else
      Json.obj [("content_type", Json.str "Provided schema"), ("entities", Json.arr []),
                ("schema", j), ("indexes", Json.arr []),
                ("notes", Json.str "Schema provided by user for consistent parsing")]

/-- The initialization phase of `convert_to_json` before any conversion
starts: construct the `AIDataConverter` (which may raise), then resolve
the analysis/schema.  An uncaught `ValueError` from provider
construction aborts the run (`Except.error`); schema-file problems do
not reach this level. -/
def convertToJsonInit (providerName : String) (apiKeyArg : Option String)
    (env : String → Option String) (autoAnalysis : Json)
    (file : SchemaFileState) : Except String Json :=
  match initProvider providerName apiKeyArg env with
  | Except.error e => Except.error e
  | Except.ok _ => Except.ok (resolveSchemaAnalysis autoAnalysis file)

/-- The results of the admission-predicate evaluations performed for a
given URL during one crawl, in evaluation order (both call sites of
`_should_crawl`). -/
def evalResultsFor (st : CrawlState) (u : String) : List Bool :=
  st.trace.filterMap (fun e =>
    match e with
    | CrawlEvent.eval _ u2 r => if u2 == u then some r else none
    | _ => none)

/-- The provenance source URL of a converted record:
`record['_metadata']['source_url']`. -/
def provSourceUrl (j : Json) : Option String :=
  match (Json.lookup j "_metadata").bind (fun m => Json.lookup m "source_url") with
  | some (Json.str u) => some u
  | _ => none

/-- Replay relation for crawl traces: `Replay cfg fetch v s Δ v2 s2`
says the event list `Δ` is a valid continuation of a session whose
visited set is `v` and scraped list is `s`, ending with visited set `v2`
and scraped list `s2`.  Each constructor matches the state change at the
corresponding program point of `_crawl_recursive`: an admission
evaluation records the value of `_should_crawl` on the current visited
set and changes nothing; a fetch attempt happens only under a positive
admission check and marks the URL visited; a progress checkpoint is
written right after a successful fetch appends its page to
`scraped_data`, recording the new total, the current visited set, and
the fetched URL. -/
inductive Replay (cfg : CrawlerConfig) (fetch : String → Option PageRecord) :
    List String → List PageRecord → List CrawlEvent → List String → List PageRecord → Prop where
  | nil (v : List String) (s : List PageRecord) : Replay cfg fetch v s [] v s
  | eval (v : List String) (s : List PageRecord) (site : EvalSite) (u : String)
      (Δ : List CrawlEvent) (v2 : List String) (s2 : List PageRecord) :
      Replay cfg fetch v s Δ v2 s2 →
      Replay cfg fetch v s (CrawlEvent.eval site u (shouldCrawl cfg v u) :: Δ) v2 s2
  | attempt (v : List String) (s : List PageRecord) (u : String)
      (Δ : List CrawlEvent) (v2 : List String) (s2 : List PageRecord) :
      shouldCrawl cfg v u = true →
      Replay cfg fetch (setInsert u v) s Δ v2 s2 →
      Replay cfg fetch v s (CrawlEvent.fetchAttempt u v :: Δ) v2 s2
  | checkpoint (v : List String) (s : List PageRecord) (u : String) (pd : PageRecord)
      (Δ : List CrawlEvent) (v2 : List String) (s2 : List PageRecord) :
      fetch u = some pd →
      Replay cfg fetch v (s ++ [pd]) Δ v2 s2 →
      Replay cfg fetch v s (CrawlEvent.checkpoint (s.length + 1) v u :: Δ) v2 s2

/-- A small concrete `PageRecord`, for the concrete evaluations below. -/
def samplePage (u : String) (links : List String) : PageRecord :=
  ⟨u, "hash-" ++ u, "title-" ++ u, "text", [], [], links, 0⟩

/-- A concrete `json.loads` oracle for the concrete evaluations below. -/
def sampleLoads : String → Except String Json :=
  fun s =>
    if s = "ok" then Except.ok (Json.obj [("a", Json.num 1)])
    else if s = "null" then Except.ok Json.null
    else if s = "[1]" then Except.ok (Json.arr [Json.num 1])
    else Except.error "Expecting value"

/-- A concrete page fetcher in which the seed page `s` links to a page
`f` whose fetch fails and a page `t` whose fetch succeeds. -/
def sampleFetchFail : String → Option PageRecord :=
  fun u =>
    if u = "s" then some (samplePage "s" ["f", "t"])
    else if u = "t" then some (samplePage "t" [])
    else none

/-- A concrete page fetcher in which the seed page `s` links twice to a
page `u` whose fetch succeeds. -/
def sampleFetchDup : String → Option PageRecord :=
  fun u =>
    if u = "s" then some (samplePage "s" ["u", "u"])
    else if u = "u" then some (samplePage "u" [])
    else none

/-- A crawler configuration for the concrete evaluations below: seed
`s`, depth limit 1, no domain restriction, page budget 10, no patterns. -/
def sampleCfg : CrawlerConfig :=
  ⟨"s", 1, false, 10, [], []⟩

/-- Seven distinct concrete pages, for the checkpoint-cadence scenario. -/
def sevenPages : List PageRecord :=
  [samplePage "u1" [], samplePage "u2" [], samplePage "u3" [], samplePage "u4" [],
   samplePage "u5" [], samplePage "u6" [], samplePage "u7" []]

/-- Provider outcomes where every call returns the parseable text `ok`. -/
def outcomesAllOk : Nat → GenOutcome :=
  fun _ => GenOutcome.ret (some "ok")

/-- Provider outcomes where call 4 returns `None` and every other call
returns the parseable text `ok`. -/
def outcomesFail4 : Nat → GenOutcome :=
  fun i => if i = 4 then GenOutcome.ret none else GenOutcome.ret (some "ok")

/-- `StepRel cfg fetch a b`: state `b` is reachable from state `a` by a
sequence of `_crawl_recursive` program steps, with the events appended
to the trace forming a valid `Replay` continuation. -/
def StepRel (cfg : CrawlerConfig) (fetch : String → Option PageRecord)
    (a b : CrawlState) : Prop :=
  ∃ Δ, b.trace = a.trace ++ Δ ∧ Replay cfg fetch a.visited a.scraped Δ b.visited b.scraped

/-- Counting invariant of a crawl state: no more scraped pages than
visited URLs, and every progress checkpoint ever written reported a
`total_pages` no larger than the size of its visited-set snapshot. -/
def CountInv (st : CrawlState) : Prop :=
  st.scraped.length ≤ st.visited.length ∧
  ∀ n vs last, CrawlEvent.checkpoint n vs last ∈ st.trace → n ≤ vs.length

theorem shouldCrawl_of_mem (cfg : CrawlerConfig) (visited : List String) (url : String)
    (h : url ∈ visited) : shouldCrawl cfg visited url = false := by
  unfold shouldCrawl
  simp [h]

theorem shouldCrawl_budget (cfg : CrawlerConfig) (visited : List String) (url : String)
    (h : cfg.maxPages ≤ visited.length) : shouldCrawl cfg visited url = false := by
  unfold shouldCrawl
  by_cases hm : url ∈ visited
  · simp [hm]
  · simp [hm, h]

theorem shouldCrawl_true_elim (cfg : CrawlerConfig) (visited : List String) (url : String)
    (h : shouldCrawl cfg visited url = true) :
    url ∉ visited ∧ visited.length < cfg.maxPages := by
  by_cases hm : url ∈ visited
  · rw [shouldCrawl_of_mem cfg visited url hm] at h
    cases h
  · by_cases hb : cfg.maxPages ≤ visited.length
    · rw [shouldCrawl_budget cfg visited url hb] at h
      cases h
    · exact ⟨hm, Nat.lt_of_not_le hb⟩

theorem mem_setInsert_self (u : String) (l : List String) : u ∈ setInsert u l := by
  unfold setInsert
  split
  · assumption
  · exact List.mem_cons_self u l

theorem mem_setInsert_of_mem (u x : String) (l : List String) (h : x ∈ l) :
    x ∈ setInsert u l := by
  unfold setInsert
  split
  · exact h
  · exact List.mem_cons_of_mem u h

theorem subset_setInsert (u : String) (l : List String) : l ⊆ setInsert u l :=
  fun _ hx => mem_setInsert_of_mem u _ l hx

theorem length_setInsert_of_not_mem (u : String) (l : List String) (h : u ∉ l) :
    (setInsert u l).length = l.length + 1 := by
  unfold setInsert
  rw [if_neg h]
  rfl

theorem length_le_length_setInsert (u : String) (l : List String) :
    l.length ≤ (setInsert u l).length := by
  unfold setInsert
  split
  · exact Nat.le_refl _
  · exact Nat.le_succ _

theorem Replay.trans (cfg : CrawlerConfig) (fetch : String → Option PageRecord)
    (v s Δ1 v1 s1 Δ2 v2 s2) (h1 : Replay cfg fetch v s Δ1 v1 s1)
    (h2 : Replay cfg fetch v1 s1 Δ2 v2 s2) : Replay cfg fetch v s (Δ1 ++ Δ2) v2 s2 := by
  revert h2
  induction h1 with
  | nil _ _ => exact fun h2 => h2
  | eval va sa site u Δ vb sb hrep ih =>
    exact fun h2 => Replay.eval va sa site u _ v2 s2 (ih h2)
  | attempt va sa u Δ vb sb hsc hrep ih =>
    exact fun h2 => Replay.attempt va sa u _ v2 s2 hsc (ih h2)
  | checkpoint va sa u pd Δ vb sb hf hrep ih =>
    exact fun h2 => Replay.checkpoint va sa u pd _ v2 s2 hf (ih h2)

theorem Replay.visited_subset (cfg : CrawlerConfig) (fetch : String → Option PageRecord)
    (v s Δ v2 s2) (h : Replay cfg fetch v s Δ v2 s2) : v ⊆ v2 := by
  induction h with
  | nil _ _ => exact fun x hx => hx
  | eval va sa site u Δ vb sb hrep ih => exact ih
  | attempt va sa u Δ vb sb hsc hrep ih =>
    exact fun x hx => ih (mem_setInsert_of_mem u x va hx)
  | checkpoint va sa u pd Δ vb sb hf hrep ih => exact ih

theorem Replay.eval_false_of_mem (cfg : CrawlerConfig) (fetch : String → Option PageRecord)
    (v s Δ v2 s2 u site r) (h : Replay cfg fetch v s Δ v2 s2) :
    u ∈ v → CrawlEvent.eval site u r ∈ Δ → r = false := by
  induction h with
  | nil _ _ => intro _ hmem; cases hmem
  | eval va sa site2 u2 Δ vb sb hrep ih =>
    intro hu hmem
    rcases List.mem_cons.mp hmem with he | ht
    · obtain ⟨hs, hu2, hr⟩ := CrawlEvent.eval.inj he
      subst hu2
      rw [hr]
      exact shouldCrawl_of_mem cfg va u hu
    · exact ih hu ht
  | attempt va sa u2 Δ vb sb hsc hrep ih =>
    intro hu hmem
    rcases List.mem_cons.mp hmem with he | ht
    · cases he
    · exact ih (mem_setInsert_of_mem u2 u va hu) ht
  | checkpoint va sa u2 pd Δ vb sb hf hrep ih =>
    intro hu hmem
    rcases List.mem_cons.mp hmem with he | ht
    · cases he
    · exact ih hu ht

theorem Replay.no_attempt_of_mem (cfg : CrawlerConfig) (fetch : String → Option PageRecord)
    (v s Δ v2 s2 u vb) (h : Replay cfg fetch v s Δ v2 s2) :
    u ∈ v → CrawlEvent.fetchAttempt u vb ∈ Δ → False := by
  induction h with
  | nil _ _ => intro _ hmem; cases hmem
  | eval va sa site2 u2 Δ vc sc hrep ih =>
    intro hu hmem
    rcases List.mem_cons.mp hmem with he | ht
    · cases he
    · exact ih hu ht
  | attempt va sa u2 Δ vc sc hsc hrep ih =>
    intro hu hmem
    rcases List.mem_cons.mp hmem with he | ht
    · obtain ⟨hu2, hv2⟩ := CrawlEvent.fetchAttempt.inj he
      subst hu2
      exact (shouldCrawl_true_elim cfg va u hsc).1 hu
    · exact ih (mem_setInsert_of_mem u2 u va hu) ht
  | checkpoint va sa u2 pd Δ vc sc hf hrep ih =>
    intro hu hmem
    rcases List.mem_cons.mp hmem with he | ht
    · cases he
    · exact ih hu ht

theorem Replay.attempt_shouldCrawl (cfg : CrawlerConfig) (fetch : String → Option PageRecord)
    (v s Δ v2 s2 u vb) (h : Replay cfg fetch v s Δ v2 s2) :
    CrawlEvent.fetchAttempt u vb ∈ Δ → shouldCrawl cfg vb u = true := by
  induction h with
  | nil _ _ => intro hmem; cases hmem
  | eval va sa site2 u2 Δ vc sc hrep ih =>
    intro hmem
    rcases List.mem_cons.mp hmem with he | ht
    · cases he
    · exact ih ht
  | attempt va sa u2 Δ vc sc hsc hrep ih =>
    intro hmem
    rcases List.mem_cons.mp hmem with he | ht
    · obtain ⟨hu2, hv2⟩ := CrawlEvent.fetchAttempt.inj he
      subst hu2
      subst hv2
      exact hsc
    · exact ih ht
  | checkpoint va sa u2 pd Δ vc sc hf hrep ih =>
    intro hmem
    rcases List.mem_cons.mp hmem with he | ht
    · cases he
    · exact ih ht

theorem Replay.checkpoint_visited (cfg : CrawlerConfig) (fetch : String → Option PageRecord)
    (v s Δ v2 s2 n vs last) (h : Replay cfg fetch v s Δ v2 s2) :
    CrawlEvent.checkpoint n vs last ∈ Δ → v ⊆ vs := by
  induction h with
  | nil _ _ => intro hmem; cases hmem
  | eval va sa site2 u2 Δ vc sc hrep ih =>
    intro hmem
    rcases List.mem_cons.mp hmem with he | ht
    · cases he
    · exact ih ht
  | attempt va sa u2 Δ vc sc hsc hrep ih =>
    intro hmem
    rcases List.mem_cons.mp hmem with he | ht
    · cases he
    · exact fun x hx => ih ht (mem_setInsert_of_mem u2 x va hx)
  | checkpoint va sa u2 pd Δ vc sc hf hrep ih =>
    intro hmem
    rcases List.mem_cons.mp hmem with he | ht
    · obtain ⟨hn, hv2, hu2⟩ := CrawlEvent.checkpoint.inj he
      subst hv2
      exact fun x hx => hx
    · exact ih ht

theorem Replay.budget (cfg : CrawlerConfig) (fetch : String → Option PageRecord)
    (v s Δ v2 s2) (h : Replay cfg fetch v s Δ v2 s2) :
    v.length ≤ cfg.maxPages →
      v2.length ≤ cfg.maxPages ∧
      (∀ u vb, CrawlEvent.fetchAttempt u vb ∈ Δ → vb.length < cfg.maxPages) ∧
      (∀ n vs last, CrawlEvent.checkpoint n vs last ∈ Δ → vs.length ≤ cfg.maxPages) := by
  induction h with
  | nil _ _ =>
    intro hv
    exact ⟨hv, fun u vb hmem => absurd hmem (List.not_mem_nil _),
      fun n vs last hmem => absurd hmem (List.not_mem_nil _)⟩
  | eval va sa site2 u2 Δ vc sc hrep ih =>
    intro hv
    obtain ⟨h1, h2, h3⟩ := ih hv
    refine ⟨h1, ?_, ?_⟩
    · intro u vb hmem
      rcases List.mem_cons.mp hmem with he | ht
      · cases he
      · exact h2 u vb ht
    · intro n vs last hmem
      rcases List.mem_cons.mp hmem with he | ht
      · cases he
      · exact h3 n vs last ht
  | attempt va sa u2 Δ vc sc hsc hrep ih =>
    intro hv
    obtain ⟨hnm, hlt⟩ := shouldCrawl_true_elim cfg va u2 hsc
    have hlen : (setInsert u2 va).length = va.length + 1 :=
      length_setInsert_of_not_mem u2 va hnm
    have hins : (setInsert u2 va).length ≤ cfg.maxPages := by
      rw [hlen]
      exact Nat.succ_le_of_lt hlt
    obtain ⟨h1, h2, h3⟩ := ih hins
    refine ⟨h1, ?_, ?_⟩
    · intro u vb hmem
      rcases List.mem_cons.mp hmem with he | ht
      · obtain ⟨hu2, hv2⟩ := CrawlEvent.fetchAttempt.inj he
        subst hv2
        exact hlt
      · exact h2 u vb ht
    · intro n vs last hmem
      rcases List.mem_cons.mp hmem with he | ht
      · cases he
      · exact h3 n vs last ht
  | checkpoint va sa u2 pd Δ vc sc hf hrep ih =>
    intro hv
    obtain ⟨h1, h2, h3⟩ := ih hv
    refine ⟨h1, ?_, ?_⟩
    · intro u vb hmem
      rcases List.mem_cons.mp hmem with he | ht
      · cases he
      · exact h2 u vb ht
    · intro n vs last hmem
      rcases List.mem_cons.mp hmem with he | ht
      · obtain ⟨hn, hv2, hu2⟩ := CrawlEvent.checkpoint.inj he
        subst hv2
        exact hv
      · exact h3 n vs last ht

theorem Replay.scraped_from_fetch (cfg : CrawlerConfig) (fetch : String → Option PageRecord)
    (v s Δ v2 s2) (h : Replay cfg fetch v s Δ v2 s2) :
    ∀ pd ∈ s2, pd ∈ s ∨ ∃ u2, fetch u2 = some pd := by
  induction h with
  | nil _ _ => exact fun pd hpd => Or.inl hpd
  | eval va sa site2 u2 Δ vc sc hrep ih => exact ih
  | attempt va sa u2 Δ vc sc hsc hrep ih => exact ih
  | checkpoint va sa u2 pd0 Δ vc sc hf hrep ih =>
    intro pd hpd
    rcases ih pd hpd with hin | hfet
    · rcases List.mem_append.mp hin with hs | hone
      · exact Or.inl hs
      · rcases List.mem_singleton.mp hone with rfl
        exact Or.inr ⟨u2, hf⟩
    · exact Or.inr hfet

theorem Replay.drop (cfg : CrawlerConfig) (fetch : String → Option PageRecord)
    (v s Δ v2 s2) (h : Replay cfg fetch v s Δ v2 s2) :
    ∀ n : Nat, ∃ v1 s1, v ⊆ v1 ∧ Replay cfg fetch v1 s1 (Δ.drop n) v2 s2 := by
  induction h with
  | nil va sa =>
    intro n
    exact ⟨va, sa, fun x hx => hx, by rw [List.drop_nil]; exact Replay.nil va sa⟩
  | eval va sa site2 u2 Δ vc sc hrep ih =>
    intro n
    match n with
    | 0 => exact ⟨va, sa, fun x hx => hx, Replay.eval va sa site2 u2 Δ vc sc hrep⟩
    | Nat.succ m => exact ih m
  | attempt va sa u2 Δ vc sc hsc hrep ih =>
    intro n
    match n with
    | 0 => exact ⟨va, sa, fun x hx => hx, Replay.attempt va sa u2 Δ vc sc hsc hrep⟩
    | Nat.succ m =>
      obtain ⟨v1, s1, hsub, hrep1⟩ := ih m
      exact ⟨v1, s1, fun x hx => hsub (mem_setInsert_of_mem u2 x va hx), hrep1⟩
  | checkpoint va sa u2 pd Δ vc sc hf hrep ih =>
    intro n
    match n with
    | 0 => exact ⟨va, sa, fun x hx => hx, Replay.checkpoint va sa u2 pd Δ vc sc hf hrep⟩
    | Nat.succ m => exact ih m

theorem stepRel_refl (cfg : CrawlerConfig) (fetch : String → Option PageRecord)
    (st : CrawlState) : StepRel cfg fetch st st :=
  ⟨[], by rw [List.append_nil], Replay.nil st.visited st.scraped⟩

theorem stepRel_trans (cfg : CrawlerConfig) (fetch : String → Option PageRecord)
    (a b c : CrawlState) (h1 : StepRel cfg fetch a b) (h2 : StepRel cfg fetch b c) :
    StepRel cfg fetch a c := by
  obtain ⟨d1, ht1, hr1⟩ := h1
  obtain ⟨d2, ht2, hr2⟩ := h2
  exact ⟨d1 ++ d2, by rw [ht2, ht1, List.append_assoc],
    Replay.trans cfg fetch a.visited a.scraped d1 b.visited b.scraped d2 c.visited c.scraped hr1 hr2⟩

theorem foldl_rel {α β : Type} (R : α → α → Prop) (hrefl : ∀ a, R a a)
    (htrans : ∀ a b c, R a b → R b c → R a c) (f : α → β → α)
    (hstep : ∀ a b, R a (f a b)) : ∀ (l : List β) (a : α), R a (l.foldl f a) := by
  intro l
  induction l with
  | nil => intro a; exact hrefl a
  | cons x xs ih =>
    intro a
    exact htrans a (f a x) ((x :: xs).foldl f a) (hstep a x) (ih (f a x))

theorem crawl_step_eval (cfg : CrawlerConfig) (fetch : String → Option PageRecord)
    (st : CrawlState) (site : EvalSite) (url : String) :
    StepRel cfg fetch st
      { visited := st.visited, scraped := st.scraped,
        trace := st.trace ++ [CrawlEvent.eval site url (shouldCrawl cfg st.visited url)] } ∧
    (CountInv st → CountInv
      { visited := st.visited, scraped := st.scraped,
        trace := st.trace ++ [CrawlEvent.eval site url (shouldCrawl cfg st.visited url)] }) := by
  constructor
  · exact ⟨[CrawlEvent.eval site url (shouldCrawl cfg st.visited url)], rfl,
      Replay.eval st.visited st.scraped site url [] st.visited st.scraped
        (Replay.nil st.visited st.scraped)⟩
  · rintro ⟨hc1, hc2⟩
    refine ⟨hc1, ?_⟩
    intro n vs last hmem
    rcases List.mem_append.mp hmem with hin | hone
    · exact hc2 n vs last hin
    · exact CrawlEvent.noConfusion (List.mem_singleton.mp hone)

theorem crawl_step_attempt (cfg : CrawlerConfig) (fetch : String → Option PageRecord)
    (st : CrawlState) (url : String) (hr : shouldCrawl cfg st.visited url = true) :
    StepRel cfg fetch st
      { visited := setInsert url st.visited, scraped := st.scraped,
        trace := st.trace ++ [CrawlEvent.eval EvalSite.entry url (shouldCrawl cfg st.visited url)]
          ++ [CrawlEvent.fetchAttempt url st.visited] } ∧
    (CountInv st → CountInv
      { visited := setInsert url st.visited, scraped := st.scraped,
        trace := st.trace ++ [CrawlEvent.eval EvalSite.entry url (shouldCrawl cfg st.visited url)]
          ++ [CrawlEvent.fetchAttempt url st.visited] }) := by
  constructor
  · refine ⟨[CrawlEvent.eval EvalSite.entry url (shouldCrawl cfg st.visited url),
      CrawlEvent.fetchAttempt url st.visited], by rw [List.append_assoc]; rfl, ?_⟩
    exact Replay.eval st.visited st.scraped EvalSite.entry url _ (setInsert url st.visited) st.scraped
      (Replay.attempt st.visited st.scraped url [] (setInsert url st.visited) st.scraped hr
        (Replay.nil (setInsert url st.visited) st.scraped))
  · rintro ⟨hc1, hc2⟩
    refine ⟨Nat.le_trans hc1 (length_le_length_setInsert url st.visited), ?_⟩
    intro n vs last hmem
    rcases List.mem_append.mp hmem with hin | hone
    · rcases List.mem_append.mp hin with hin2 | hone2
      · exact hc2 n vs last hin2
      · exact CrawlEvent.noConfusion (List.mem_singleton.mp hone2)
    · exact CrawlEvent.noConfusion (List.mem_singleton.mp hone)

theorem crawl_step_fetched (cfg : CrawlerConfig) (fetch : String → Option PageRecord)
    (st : CrawlState) (url : String) (pd : PageRecord)
    (hr : shouldCrawl cfg st.visited url = true) (hf : fetch url = some pd) :
    StepRel cfg fetch st
      { visited := setInsert url st.visited, scraped := st.scraped ++ [pd],
        trace := st.trace ++ [CrawlEvent.eval EvalSite.entry url (shouldCrawl cfg st.visited url)]
          ++ [CrawlEvent.fetchAttempt url st.visited]
          ++ [CrawlEvent.checkpoint (st.scraped.length + 1) (setInsert url st.visited) url] } ∧
    (CountInv st → CountInv
      { visited := setInsert url st.visited, scraped := st.scraped ++ [pd],
        trace := st.trace ++ [CrawlEvent.eval EvalSite.entry url (shouldCrawl cfg st.visited url)]
          ++ [CrawlEvent.fetchAttempt url st.visited]
          ++ [CrawlEvent.checkpoint (st.scraped.length + 1) (setInsert url st.visited) url] }) := by
  have hnm : url ∉ st.visited := (shouldCrawl_true_elim cfg st.visited url hr).1
  have hlen : (setInsert url st.visited).length = st.visited.length + 1 :=
    length_setInsert_of_not_mem url st.visited hnm
  constructor
  · refine ⟨[CrawlEvent.eval EvalSite.entry url (shouldCrawl cfg st.visited url),
      CrawlEvent.fetchAttempt url st.visited,
      CrawlEvent.checkpoint (st.scraped.length + 1) (setInsert url st.visited) url],
      by rw [List.append_assoc, List.append_assoc]; rfl, ?_⟩
    exact Replay.eval st.visited st.scraped EvalSite.entry url _ (setInsert url st.visited)
      (st.scraped ++ [pd])
      (Replay.attempt st.visited st.scraped url _ (setInsert url st.visited) (st.scraped ++ [pd]) hr
        (Replay.checkpoint (setInsert url st.visited) st.scraped url pd [] (setInsert url st.visited)
          (st.scraped ++ [pd]) hf
          (Replay.nil (setInsert url st.visited) (st.scraped ++ [pd]))))
  · rintro ⟨hc1, hc2⟩
    constructor
    · rw [hlen, List.length_append, List.length_cons, List.length_nil]
      exact Nat.succ_le_succ hc1
    · intro n vs last hmem
      rcases List.mem_append.mp hmem with hin | hone
      · rcases List.mem_append.mp hin with hin2 | hone2
        · rcases List.mem_append.mp hin2 with hin3 | hone3
          · exact hc2 n vs last hin3
          · exact CrawlEvent.noConfusion (List.mem_singleton.mp hone3)
        · exact CrawlEvent.noConfusion (List.mem_singleton.mp hone2)
      · obtain ⟨hn, hv2, hu2⟩ := CrawlEvent.checkpoint.inj (List.mem_singleton.mp hone)
        subst hn
        subst hv2
        rw [hlen]
        exact Nat.succ_le_succ hc1

theorem crawlRec_master (cfg : CrawlerConfig) (fetch : String → Option PageRecord) :
    ∀ (fuel : Nat) (st : CrawlState) (url : String) (depth : Nat),
      StepRel cfg fetch st (crawlRec cfg fetch fuel st url depth) ∧
      (CountInv st → CountInv (crawlRec cfg fetch fuel st url depth)) := by
  intro fuel
  induction fuel with
  | zero =>
    intro st url depth
    exact ⟨stepRel_refl cfg fetch st, fun h => h⟩
  | succ fuel ih =>
    intro st url depth
    simp only [crawlRec]
    by_cases hr : shouldCrawl cfg st.visited url = true
    · rw [if_pos hr]
      by_cases hd : cfg.maxDepth < depth
      · rw [if_pos hd]
        exact crawl_step_eval cfg fetch st EvalSite.entry url
      · rw [if_neg hd]
        cases hfetch : fetch url with
        | none => exact crawl_step_attempt cfg fetch st url hr
        | some pd =>
          have h04 := crawl_step_fetched cfg fetch st url pd hr hfetch
          simp only [List.length_append, List.length_cons, List.length_nil, Nat.zero_add]
          by_cases hd2 : depth < cfg.maxDepth
          · rw [if_pos hd2]
            have hfold := foldl_rel
              (fun a b => StepRel cfg fetch a b ∧ (CountInv a → CountInv b))
              (fun a => ⟨stepRel_refl cfg fetch a, fun h => h⟩)
              (fun a b c h1 h2 => ⟨stepRel_trans cfg fetch a b c h1.1 h2.1, fun h => h2.2 (h1.2 h)⟩)
              (fun s link =>
                if shouldCrawl cfg s.visited link = true then
                  crawlRec cfg fetch fuel
                    { visited := s.visited, scraped := s.scraped,
                      trace := s.trace ++ [CrawlEvent.eval EvalSite.guard link (shouldCrawl cfg s.visited link)] }
                    link (depth + 1)
                else
                  { visited := s.visited, scraped := s.scraped,
                    trace := s.trace ++ [CrawlEvent.eval EvalSite.guard link (shouldCrawl cfg s.visited link)] })
              (fun s link => by
                dsimp only
                by_cases h2 : shouldCrawl cfg s.visited link = true
                · rw [if_pos h2]
                  have he := crawl_step_eval cfg fetch s EvalSite.guard link
                  have hrec := ih
                    { visited := s.visited, scraped := s.scraped,
                      trace := s.trace ++ [CrawlEvent.eval EvalSite.guard link (shouldCrawl cfg s.visited link)] }
                    link (depth + 1)
                  exact ⟨stepRel_trans cfg fetch _ _ _ he.1 hrec.1, fun h => hrec.2 (he.2 h)⟩
                · rw [if_neg h2]
                  exact crawl_step_eval cfg fetch s EvalSite.guard link)
              pd.links
              { visited := setInsert url st.visited, scraped := st.scraped ++ [pd],
                trace := st.trace ++ [CrawlEvent.eval EvalSite.entry url (shouldCrawl cfg st.visited url)]
                  ++ [CrawlEvent.fetchAttempt url st.visited]
                  ++ [CrawlEvent.checkpoint (st.scraped.length + 1) (setInsert url st.visited) url] }
            exact ⟨stepRel_trans cfg fetch _ _ _ h04.1 hfold.1, fun h => hfold.2 (h04.2 h)⟩
          · rw [if_neg hd2]
            exact h04
    · rw [if_neg hr]
      exact crawl_step_eval cfg fetch st EvalSite.entry url

theorem crawl_trace_replay (cfg : CrawlerConfig) (fetch : String → Option PageRecord)
    (fuel : Nat) :
    Replay cfg fetch [] [] (crawl cfg fetch fuel).trace
      (crawl cfg fetch fuel).visited (crawl cfg fetch fuel).scraped := by
  obtain ⟨d, htr, hrep⟩ := (crawlRec_master cfg fetch fuel ⟨[], [], []⟩ cfg.baseUrl 0).1
  have htr2 : (crawl cfg fetch fuel).trace = d := by
    unfold crawl
    rw [htr]
    exact List.nil_append d
  rw [htr2]
  exact hrep

theorem crawl_countInv (cfg : CrawlerConfig) (fetch : String → Option PageRecord)
    (fuel : Nat) : CountInv (crawl cfg fetch fuel) := by
  refine (crawlRec_master cfg fetch fuel ⟨[], [], []⟩ cfg.baseUrl 0).2 ⟨Nat.le_refl 0, ?_⟩
  intro n vs last hmem
  cases hmem

/-- C1: frontier budget invariant.  For every crawl session (any
configuration, fetcher, recursion fuel): (i) the final visited set has
at most `max_pages` elements; (ii) every fetch attempt of the session
happened when the visited set still had fewer than `max_pages` URLs, so
no fetch is ever attempted once the budget is reached; (iii) every
progress-checkpoint snapshot of the visited set respects the budget
(so `|visited| <= max_pages` at every point in time); and (iv) the
admission predicate `_should_crawl` rejects every candidate whenever
the visited set has reached `max_pages`. -/
theorem crawler_budget_invariant (cfg : CrawlerConfig) (fetch : String → Option PageRecord)
    (fuel : Nat) :
    (crawl cfg fetch fuel).visited.length ≤ cfg.maxPages ∧
    (∀ u vb, CrawlEvent.fetchAttempt u vb ∈ (crawl cfg fetch fuel).trace →
      vb.length < cfg.maxPages) ∧
    (∀ n vs last, CrawlEvent.checkpoint n vs last ∈ (crawl cfg fetch fuel).trace →
      vs.length ≤ cfg.maxPages) ∧
    (∀ visited url, cfg.maxPages ≤ visited.length → shouldCrawl cfg visited url = false) := by
  have hb := Replay.budget cfg fetch [] [] (crawl cfg fetch fuel).trace
    (crawl cfg fetch fuel).visited (crawl cfg fetch fuel).scraped
    (crawl_trace_replay cfg fetch fuel) (Nat.zero_le cfg.maxPages)
  exact ⟨hb.1, hb.2.1, hb.2.2, fun visited url h => shouldCrawl_budget cfg visited url h⟩

theorem crawler_budget_invariant_witness :
    (crawl sampleCfg sampleFetchDup 3).visited.length ≤ sampleCfg.maxPages ∧
    (∀ u vb, CrawlEvent.fetchAttempt u vb ∈ (crawl sampleCfg sampleFetchDup 3).trace →
      vb.length < sampleCfg.maxPages) ∧
    (∀ n vs last, CrawlEvent.checkpoint n vs last ∈ (crawl sampleCfg sampleFetchDup 3).trace →
      vs.length ≤ sampleCfg.maxPages) ∧
    (∀ visited url, sampleCfg.maxPages ≤ visited.length →
      shouldCrawl sampleCfg visited url = false) :=
  crawler_budget_invariant sampleCfg sampleFetchDup 3

/-- C3 counterexample: a crawl of the seed `s` whose page links to `u`
(twice).  The admission predicate is evaluated for `u` three times: at
the link-loop guard (true), again at the recursion entry with no state
change in between (true again), and at the second link-loop guard after
`u` was marked visited (false).  The second evaluation for `u` returns
`true`, not `false` as the claim states. -/
theorem admission_second_eval_true_counterexample :
    evalResultsFor (crawl sampleCfg sampleFetchDup 3) "u" = [true, true, false] ∧
    (evalResultsFor (crawl sampleCfg sampleFetchDup 3) "u")[1]? = some true := by
  decide

/-- C3 (amended): once a URL has been admitted and marked visited —
which happens at the moment its fetch is attempted, before the fetch
completes — every later evaluation of the admission predicate for that
URL within the session returns `false`.  (As stated the claim is false:
`_should_crawl` is consulted twice per admitted link, at the loop guard
and again at recursion entry with no state change in between, so the
second evaluation of an admitted link returns `true`; rejection is
guaranteed only for evaluations after the fetch attempt.) -/
theorem admission_rejected_after_marking (cfg : CrawlerConfig)
    (fetch : String → Option PageRecord) (fuel : Nat) (i j : Nat) (u : String)
    (vb : List String) (site : EvalSite) (r : Bool) (hij : i < j)
    (hi : (crawl cfg fetch fuel).trace[i]? = some (CrawlEvent.fetchAttempt u vb))
    (hj : (crawl cfg fetch fuel).trace[j]? = some (CrawlEvent.eval site u r)) :
    r = false := by
  have hrep := crawl_trace_replay cfg fetch fuel
  obtain ⟨v1, s1, hsub1, hrep1⟩ := Replay.drop cfg fetch [] [] (crawl cfg fetch fuel).trace
    (crawl cfg fetch fuel).visited (crawl cfg fetch fuel).scraped hrep i
  obtain ⟨hlen, hget⟩ := List.getElem?_eq_some.mp hi
  have hdrop : (crawl cfg fetch fuel).trace.drop i =
      CrawlEvent.fetchAttempt u vb :: (crawl cfg fetch fuel).trace.drop (i + 1) := by
    rw [List.drop_eq_getElem_cons hlen, hget]
  rw [hdrop] at hrep1
  cases hrep1 with
  | attempt a1 a2 a3 a4 a5 a6 hsc hrep2 =>
    have hj2 : ((crawl cfg fetch fuel).trace.drop (i + 1))[j - (i + 1)]? =
        some (CrawlEvent.eval site u r) := by
      rw [List.getElem?_drop]
      have harith : i + 1 + (j - (i + 1)) = j := by omega
      rw [harith]
      exact hj
    obtain ⟨hlen2, hget2⟩ := List.getElem?_eq_some.mp hj2
    have hmem : CrawlEvent.eval site u r ∈ (crawl cfg fetch fuel).trace.drop (i + 1) := by
      rw [← hget2]
      exact List.getElem_mem hlen2
    exact Replay.eval_false_of_mem cfg fetch (setInsert u vb) s1 _
      (crawl cfg fetch fuel).visited (crawl cfg fetch fuel).scraped u site r hrep2
      (mem_setInsert_self u vb) hmem

theorem admission_rejected_after_marking_witness :
    (5 : Nat) < 7 ∧
    (crawl sampleCfg sampleFetchDup 3).trace[5]? =
      some (CrawlEvent.fetchAttempt "u" ["s"]) ∧
    (crawl sampleCfg sampleFetchDup 3).trace[7]? =
      some (CrawlEvent.eval EvalSite.guard "u" false) ∧
    false = false :=
  ⟨by decide, by decide, by decide,
    admission_rejected_after_marking sampleCfg sampleFetchDup 3 5 7 "u" ["s"]
      EvalSite.guard false (by decide) (by decide) (by decide)⟩

/-- C9: a URL whose fetch fails (modelled by the fetcher returning
`none`, covering HTTP status >= 400, a missing response, and a raised
transport error) stays in the visited set for the rest of the session:
it is in the final visited set, it is never fetched again, every later
progress-checkpoint snapshot of the visited set contains it, it
contributes no record to `scraped_data`, and
`len(scraped_data) <= len(visited_urls)` holds at the end and at every
checkpoint ever written (`total_pages <= |visited snapshot|`).
`hwf` states the fetcher contract of `_fetch_page`: a returned page
record carries the fetched URL. -/
theorem failed_fetch_stays_visited (cfg : CrawlerConfig)
    (fetch : String → Option PageRecord) (fuel : Nat) (i : Nat) (u : String)
    (vb : List String)
    (hwf : ∀ u2 pd, fetch u2 = some pd → pd.url = u2)
    (hi : (crawl cfg fetch fuel).trace[i]? = some (CrawlEvent.fetchAttempt u vb))
    (hfail : fetch u = none) :
    u ∈ (crawl cfg fetch fuel).visited ∧
    (∀ pd, pd ∈ (crawl cfg fetch fuel).scraped → pd.url ≠ u) ∧
    (∀ j n vs last, i < j →
      (crawl cfg fetch fuel).trace[j]? = some (CrawlEvent.checkpoint n vs last) → u ∈ vs) ∧
    (∀ j vb2, i < j →
      (crawl cfg fetch fuel).trace[j]? = some (CrawlEvent.fetchAttempt u vb2) → False) ∧
    (crawl cfg fetch fuel).scraped.length ≤ (crawl cfg fetch fuel).visited.length ∧
    (∀ n vs last, CrawlEvent.checkpoint n vs last ∈ (crawl cfg fetch fuel).trace →
      n ≤ vs.length) := by
  have hrep := crawl_trace_replay cfg fetch fuel
  obtain ⟨v1, s1, hsub1, hrep1⟩ := Replay.drop cfg fetch [] [] (crawl cfg fetch fuel).trace
    (crawl cfg fetch fuel).visited (crawl cfg fetch fuel).scraped hrep i
  obtain ⟨hlen, hget⟩ := List.getElem?_eq_some.mp hi
  have hdrop : (crawl cfg fetch fuel).trace.drop i =
      CrawlEvent.fetchAttempt u vb :: (crawl cfg fetch fuel).trace.drop (i + 1) := by
    rw [List.drop_eq_getElem_cons hlen, hget]
  rw [hdrop] at hrep1
  cases hrep1 with
  | attempt a1 a2 a3 a4 a5 a6 hsc hrep2 =>
    have hcount := crawl_countInv cfg fetch fuel
    refine ⟨?_, ?_, ?_, ?_, hcount.1, hcount.2⟩
    · exact Replay.visited_subset cfg fetch (setInsert u vb) s1 _
        (crawl cfg fetch fuel).visited (crawl cfg fetch fuel).scraped hrep2
        (mem_setInsert_self u vb)
    · intro pd hpd hurl
      rcases Replay.scraped_from_fetch cfg fetch [] [] (crawl cfg fetch fuel).trace
        (crawl cfg fetch fuel).visited (crawl cfg fetch fuel).scraped hrep pd hpd with
        hnil | ⟨u2, hfet⟩
      · cases hnil
      · have : u2 = u := by rw [← hurl]; exact (hwf u2 pd hfet).symm
        rw [this] at hfet
        rw [hfail] at hfet
        cases hfet
    · intro j n vs last hij hj
      have hj2 : ((crawl cfg fetch fuel).trace.drop (i + 1))[j - (i + 1)]? =
          some (CrawlEvent.checkpoint n vs last) := by
        rw [List.getElem?_drop]
        have harith : i + 1 + (j - (i + 1)) = j := by omega
        rw [harith]
        exact hj
      obtain ⟨hlen2, hget2⟩ := List.getElem?_eq_some.mp hj2
      have hmem : CrawlEvent.checkpoint n vs last ∈ (crawl cfg fetch fuel).trace.drop (i + 1) := by
        rw [← hget2]
        exact List.getElem_mem hlen2
      exact Replay.checkpoint_visited cfg fetch (setInsert u vb) s1 _
        (crawl cfg fetch fuel).visited (crawl cfg fetch fuel).scraped n vs last hrep2 hmem
        (mem_setInsert_self u vb)
    · intro j vb2 hij hj
      have hj2 : ((crawl cfg fetch fuel).trace.drop (i + 1))[j - (i + 1)]? =
          some (CrawlEvent.fetchAttempt u vb2) := by
        rw [List.getElem?_drop]
        have harith : i + 1 + (j - (i + 1)) = j := by omega
        rw [harith]
        exact hj
      obtain ⟨hlen2, hget2⟩ := List.getElem?_eq_some.mp hj2
      have hmem : CrawlEvent.fetchAttempt u vb2 ∈ (crawl cfg fetch fuel).trace.drop (i + 1) := by
        rw [← hget2]
        exact List.getElem_mem hlen2
      exact Replay.no_attempt_of_mem cfg fetch (setInsert u vb) s1 _
        (crawl cfg fetch fuel).visited (crawl cfg fetch fuel).scraped u vb2 hrep2
        (mem_setInsert_self u vb) hmem

theorem failed_fetch_stays_visited_witness :
    (∀ u2 pd, sampleFetchFail u2 = some pd → pd.url = u2) ∧
    ("f" ∈ (crawl sampleCfg sampleFetchFail 3).visited ∧
    (∀ pd, pd ∈ (crawl sampleCfg sampleFetchFail 3).scraped → pd.url ≠ "f") ∧
    (∀ j n vs last, 5 < j →
      (crawl sampleCfg sampleFetchFail 3).trace[j]? =
        some (CrawlEvent.checkpoint n vs last) → "f" ∈ vs) ∧
    (∀ j vb2, 5 < j →
      (crawl sampleCfg sampleFetchFail 3).trace[j]? =
        some (CrawlEvent.fetchAttempt "f" vb2) → False) ∧
    (crawl sampleCfg sampleFetchFail 3).scraped.length ≤
      (crawl sampleCfg sampleFetchFail 3).visited.length ∧
    (∀ n vs last, CrawlEvent.checkpoint n vs last ∈ (crawl sampleCfg sampleFetchFail 3).trace →
      n ≤ vs.length)) := by
  have hwf : ∀ u2 pd, sampleFetchFail u2 = some pd → pd.url = u2 := by
    intro u2 pd h
    unfold sampleFetchFail at h
    split at h
    · next hc =>
      cases Option.some.inj h
      rw [hc]
      rfl
    · split at h
      · next hc =>
        cases Option.some.inj h
        rw [hc]
        rfl
      · cases h
  exact ⟨hwf, failed_fetch_stays_visited sampleCfg sampleFetchFail 3 5 "f" ["s"] hwf
    (by decide) (by decide)⟩

theorem convertStep_eq (loads : String → Except String Json) (g : GenOutcome)
    (page : PageRecord) (acc : List Json × List String) :
    convertStep loads g page acc =
      match processPage loads g page with
      | some record => (acc.1 ++ [record], acc.2)
      | none => (acc.1, acc.2 ++ [page.url]) := by
  cases g with
  | raised => rfl
  | ret resp =>
    unfold convertStep processPage
    dsimp only
    cases convertPageToStructuredData loads resp with
    | none => rfl
    | some structured =>
      cases htr : structured.truthy with
      | false => simp [htr]
      | true =>
        cases hsm : setMeta structured page with
        | none => simp [htr, hsm]
        | some record => simp [htr, hsm]

theorem convertAllPagesAux_spec (loads : String → Except String Json)
    (outcomes : Nat → GenOutcome) (batchSize : Nat) :
    ∀ (pages : List PageRecord) (i : Nat) (succ : List Json) (failed : List String)
      (saves : List (Nat × List Json)),
      convertAllPagesAux loads outcomes batchSize pages i succ failed saves =
        ⟨succ ++ convSucc loads outcomes i pages,
         failed ++ convFail loads outcomes i pages,
         saves ++ convSaves loads outcomes batchSize i succ pages⟩ := by
  intro pages
  induction pages with
  | nil =>
    intro i succ failed saves
    simp [convertAllPagesAux, convSucc, convFail, convSaves]
  | cons page rest ih =>
    intro i succ failed saves
    simp only [convertAllPagesAux]
    rw [convertStep_eq]
    simp only [convSucc, convFail, convSaves]
    cases hpp : processPage loads (outcomes i) page with
    | some record =>
      cases hb : i % batchSize == 0 with
      | true => simp [hpp, hb, ih, List.append_assoc]
      | false => simp [hpp, hb, ih, List.append_assoc]
    | none =>
      cases hb : i % batchSize == 0 with
      | true => simp [hpp, hb, ih, List.append_assoc]
      | false => simp [hpp, hb, ih, List.append_assoc]

theorem mem_withIdx {α : Type} :
    ∀ (l : List α) (i : Nat) (x : Nat × α), x ∈ withIdx i l → x.2 ∈ l ∧ i ≤ x.1 := by
  intro l
  induction l with
  | nil => intro i x hx; cases hx
  | cons a rest ih =>
    intro i x hx
    rcases List.mem_cons.mp hx with he | ht
    · subst he
      exact ⟨List.mem_cons_self a rest, Nat.le_refl i⟩
    · obtain ⟨hmem, hle⟩ := ih (i + 1) x ht
      exact ⟨List.mem_cons_of_mem a hmem, Nat.le_trans (Nat.le_succ i) hle⟩

theorem convSucc_eq_filterMap (loads : String → Except String Json)
    (outcomes : Nat → GenOutcome) :
    ∀ (pages : List PageRecord) (i : Nat),
      convSucc loads outcomes i pages =
        (withIdx i pages).filterMap (fun x => processPage loads (outcomes x.1) x.2) := by
  intro pages
  induction pages with
  | nil => intro i; simp [convSucc, withIdx]
  | cons page rest ih =>
    intro i
    simp only [convSucc, withIdx, List.filterMap_cons]
    cases hpp : processPage loads (outcomes i) page with
    | none => simp [hpp, ih]
    | some record => simp [hpp, ih]

theorem convFail_eq_filterMap (loads : String → Except String Json)
    (outcomes : Nat → GenOutcome) :
    ∀ (pages : List PageRecord) (i : Nat),
      convFail loads outcomes i pages =
        (withIdx i pages).filterMap (fun x =>
          match processPage loads (outcomes x.1) x.2 with
          | some _ => none
          | none => some x.2.url) := by
  intro pages
  induction pages with
  | nil => intro i; simp [convFail, withIdx]
  | cons page rest ih =>
    intro i
    simp only [convFail, withIdx, List.filterMap_cons]
    cases hpp : processPage loads (outcomes i) page with
    | none => simp [hpp, ih]
    | some record => simp [hpp, ih]

/-- C4: per-page failure isolation and order preservation.  For every
run of `convert_all_pages`, the final `structured_data` list is exactly
the in-order list of per-page conversion results of the pages whose
conversion succeeded, and `failed_urls` is exactly the in-order list of
URLs of the pages whose provider call raised, returned nothing, or
produced output that did not survive decoding — each page's fate
depends only on its own provider outcome, pages are processed strictly
in input order (pairing page `k` with provider call `k`), no page is
reordered, and no page's failure aborts the batch. -/
theorem conversion_isolation_order (loads : String → Except String Json)
    (outcomes : Nat → GenOutcome) (pages : List PageRecord) (batchSize : Nat) :
    (convertAllPages loads outcomes pages batchSize).structuredData =
      (withIdx 1 pages).filterMap (fun x => processPage loads (outcomes x.1) x.2) ∧
    (convertAllPages loads outcomes pages batchSize).failedUrls =
      (withIdx 1 pages).filterMap (fun x =>
        match processPage loads (outcomes x.1) x.2 with
        | some _ => none
        | none => some x.2.url) := by
  unfold convertAllPages
  rw [convertAllPagesAux_spec]
  constructor
  · rw [← convSucc_eq_filterMap]
    exact List.nil_append _
  · rw [← convFail_eq_filterMap]
    exact List.nil_append _

theorem lookupFields_objSet (k : String) (v : Json) :
    ∀ fields : List (String × Json), lookupFields (objSet fields k v) k = some v := by
  intro fields
  induction fields with
  | nil => simp [objSet, lookupFields]
  | cons kv rest ih =>
    obtain ⟨k2, v2⟩ := kv
    by_cases hk : k2 == k
    · simp [objSet, hk, lookupFields]
    · simp only [objSet]
      rw [if_neg (by simpa using hk)]
      simp only [lookupFields]
      rw [if_neg (by simpa using hk)]
      exact ih

theorem provSourceUrl_processPage (loads : String → Except String Json) (g : GenOutcome)
    (page : PageRecord) (record : Json)
    (h : processPage loads g page = some record) : provSourceUrl record = some page.url := by
  cases g with
  | raised => exact absurd h (by simp [processPage])
  | ret resp =>
    simp only [processPage] at h
    cases hcp : convertPageToStructuredData loads resp with
    | none => rw [hcp] at h; cases h
    | some structured =>
      rw [hcp] at h
      dsimp only at h
      cases htr : structured.truthy with
      | false => rw [htr] at h; simp at h
      | true =>
        rw [htr] at h
        rw [if_pos rfl] at h
        cases structured with
        | obj fields =>
          simp only [setMeta] at h
          cases Option.some.inj h
          simp [provSourceUrl, Json.lookup, lookupFields_objSet, metaObj, lookupFields]
        | null => simp [setMeta] at h
        | bool b => simp [setMeta] at h
        | num n => simp [setMeta] at h
        | str s => simp [setMeta] at h
        | arr elems => simp [setMeta] at h

theorem conv_urls_perm (loads : String → Except String Json) (outcomes : Nat → GenOutcome) :
    ∀ (pages : List PageRecord) (i : Nat),
      List.Perm
        ((convSucc loads outcomes i pages).filterMap provSourceUrl ++
          convFail loads outcomes i pages)
        (pages.map PageRecord.url) := by
  intro pages
  induction pages with
  | nil => intro i; simp [convSucc, convFail]
  | cons page rest ih =>
    intro i
    simp only [convSucc, convFail, List.map_cons]
    cases hpp : processPage loads (outcomes i) page with
    | some record =>
      simp only [hpp, Option.toList, List.singleton_append, List.filterMap_cons]
      rw [provSourceUrl_processPage loads (outcomes i) page record hpp]
      simpa using List.Perm.cons page.url (ih (i + 1))
    | none =>
      simp only [hpp, Option.toList, List.nil_append]
      exact List.Perm.trans (List.perm_middle) (List.Perm.cons page.url (ih (i + 1)))

/-- C2: ledger partition.  For every run of `convert_all_pages` over
pages with pairwise-distinct URLs: the multiset of provenance source
URLs of `structured_data` together with `failed_urls` is a permutation
of the input URL list (no omissions, no duplicates, each page in
exactly one side), every record of `structured_data` carries a
provenance source URL, and the combined URL list has no duplicates. -/
theorem conversion_ledger_partition (loads : String → Except String Json)
    (outcomes : Nat → GenOutcome) (pages : List PageRecord) (batchSize : Nat)
    (hnd : (pages.map PageRecord.url).Nodup) :
    List.Perm
      ((convertAllPages loads outcomes pages batchSize).structuredData.filterMap provSourceUrl ++
        (convertAllPages loads outcomes pages batchSize).failedUrls)
      (pages.map PageRecord.url) ∧
    (∀ record ∈ (convertAllPages loads outcomes pages batchSize).structuredData,
      ∃ page ∈ pages, provSourceUrl record = some page.url) ∧
    ((convertAllPages loads outcomes pages batchSize).structuredData.filterMap provSourceUrl ++
      (convertAllPages loads outcomes pages batchSize).failedUrls).Nodup := by
  have hchar1 : (convertAllPages loads outcomes pages batchSize).structuredData =
      convSucc loads outcomes 1 pages := by
    unfold convertAllPages
    rw [convertAllPagesAux_spec]
    exact List.nil_append _
  have hchar2 : (convertAllPages loads outcomes pages batchSize).failedUrls =
      convFail loads outcomes 1 pages := by
    unfold convertAllPages
    rw [convertAllPagesAux_spec]
    exact List.nil_append _
  have hperm := conv_urls_perm loads outcomes pages 1
  rw [hchar1, hchar2]
  refine ⟨hperm, ?_, (hperm.nodup_iff).mpr hnd⟩
  intro record hrec
  rw [convSucc_eq_filterMap] at hrec
  obtain ⟨x, hx, hpp⟩ := List.mem_filterMap.mp hrec
  exact ⟨x.2, (mem_withIdx pages 1 x hx).1,
    provSourceUrl_processPage loads (outcomes x.1) x.2 record hpp⟩

theorem conversion_ledger_partition_witness :
    ((sevenPages.map PageRecord.url).Nodup) ∧
    (List.Perm
      ((convertAllPages sampleLoads outcomesFail4 sevenPages 3).structuredData.filterMap
          provSourceUrl ++
        (convertAllPages sampleLoads outcomesFail4 sevenPages 3).failedUrls)
      (sevenPages.map PageRecord.url) ∧
    (∀ record ∈ (convertAllPages sampleLoads outcomesFail4 sevenPages 3).structuredData,
      ∃ page ∈ sevenPages, provSourceUrl record = some page.url) ∧
    ((convertAllPages sampleLoads outcomesFail4 sevenPages 3).structuredData.filterMap
        provSourceUrl ++
      (convertAllPages sampleLoads outcomesFail4 sevenPages 3).failedUrls).Nodup) :=
  ⟨by decide, conversion_ledger_partition sampleLoads outcomesFail4 sevenPages 3 (by decide)⟩

theorem convSaves_eq (loads : String → Except String Json) (outcomes : Nat → GenOutcome)
    (batchSize : Nat) :
    ∀ (pages : List PageRecord) (i : Nat) (succ : List Json),
      convSaves loads outcomes batchSize i succ pages =
        ((withIdx i pages).filter (fun x => x.1 % batchSize == 0)).map
          (fun x => (x.1, succ ++ convSucc loads outcomes i (pages.take (x.1 + 1 - i)))) := by
  intro pages
  induction pages with
  | nil => intro i succ; simp [convSaves, withIdx]
  | cons page rest ih =>
    intro i succ
    simp only [convSaves, withIdx, List.filter_cons]
    have hmap : ∀ x ∈ (withIdx (i + 1) rest).filter (fun x => x.1 % batchSize == 0),
        ((fun x => (x.1, (succ ++ (processPage loads (outcomes i) page).toList) ++
            convSucc loads outcomes (i + 1) (rest.take (x.1 + 1 - (i + 1))))) x : Nat × List Json) =
          (fun x => (x.1, succ ++ convSucc loads outcomes i ((page :: rest).take (x.1 + 1 - i)))) x := by
      intro x hx
      dsimp only
      have hle : i + 1 ≤ x.1 := (mem_withIdx rest (i + 1) x (List.mem_of_mem_filter hx)).2
      have htake : (page :: rest).take (x.1 + 1 - i) = page :: rest.take (x.1 - i) := by
        have harith : x.1 + 1 - i = (x.1 - i) + 1 := by omega
        rw [harith]
        rfl
      have htake2 : x.1 + 1 - (i + 1) = x.1 - i := by omega
      rw [htake, htake2]
      simp only [convSucc]
      rw [List.append_assoc]
    cases hb : i % batchSize == 0 with
    | true =>
      rw [if_pos rfl]
      rw [ih (i + 1) (succ ++ (processPage loads (outcomes i) page).toList)]
      rw [List.map_congr_left hmap]
      rw [if_pos rfl]
      simp only [List.map_cons, List.singleton_append]
      have h1 : (page :: rest).take (i + 1 - i) = [page] := by
        have h2 : i + 1 - i = 1 := by omega
        rw [h2]
        rfl
      rw [h1]
      simp [convSucc]
    | false =>
      rw [if_neg Bool.false_ne_true]
      rw [ih (i + 1) (succ ++ (processPage loads (outcomes i) page).toList)]
      rw [List.map_congr_left hmap]
      simp

/-- C8: checkpoint cadence and full-overwrite semantics.  For every run
of `convert_all_pages` with a positive `batch_size`, the sequence of
output-file writes is exactly: one write after each `batch_size`-th
processed page (successes and failures both counted by the 1-based page
counter), whose content is precisely the full list of successes
accumulated over the first `k` pages (overwrite, not append), followed
by one final write holding the successes of all pages.  For 7 pages and
`batch_size = 3` this gives writes after pages 3, 6 and 7. -/
theorem checkpoint_cadence (loads : String → Except String Json)
    (outcomes : Nat → GenOutcome) (pages : List PageRecord) (batchSize : Nat)
    (_hb : 0 < batchSize) :
    (convertAllPages loads outcomes pages batchSize).saves =
      ((withIdx 1 pages).filter (fun x => x.1 % batchSize == 0)).map
        (fun x => (x.1, convSucc loads outcomes 1 (pages.take x.1)))
      ++ [(pages.length, convSucc loads outcomes 1 pages)] := by
  unfold convertAllPages
  rw [convertAllPagesAux_spec]
  dsimp only
  rw [convSaves_eq]
  rw [List.nil_append]
  have hmap : ∀ x ∈ (withIdx 1 pages).filter (fun x => x.1 % batchSize == 0),
      ((fun x => ((x.1 : Nat), ([] : List Json) ++
          convSucc loads outcomes 1 (pages.take (x.1 + 1 - 1)))) x : Nat × List Json) =
        (fun x => (x.1, convSucc loads outcomes 1 (pages.take x.1))) x := by
    intro x hx
    dsimp only
    have : x.1 + 1 - 1 = x.1 := by omega
    rw [this]
    rw [List.nil_append]
  rw [List.map_congr_left hmap]
  rw [List.nil_append]

theorem checkpoint_cadence_witness :
    (0 : Nat) < 3 ∧
    ((convertAllPages sampleLoads outcomesAllOk sevenPages 3).saves.map Prod.fst =
      [3, 6, 7]) ∧
    ((convertAllPages sampleLoads outcomesAllOk sevenPages 3).saves =
      ((withIdx 1 sevenPages).filter (fun x => x.1 % 3 == 0)).map
        (fun x => (x.1, convSucc sampleLoads outcomesAllOk 1 (sevenPages.take x.1)))
      ++ [(sevenPages.length, convSucc sampleLoads outcomesAllOk 1 sevenPages)]) :=
  ⟨by decide, by decide,
    checkpoint_cadence sampleLoads outcomesAllOk sevenPages 3 (by decide)⟩

/-- C10: falsy decoded values are failures.  If the provider response
for a page decodes (after fence stripping) to a Python-falsy JSON value
(`{}`, `null`, `false`, `0`, `""`, `[]`), `convert_all_pages` records
that page's URL in `failed_urls` even though the response was valid
JSON; and conversely any record appended to `structured_data` comes
from a truthy decoded value and carries the `_metadata` provenance
block. -/
theorem falsy_decode_failed (loads : String → Except String Json)
    (outcomes : Nat → GenOutcome) (pages : List PageRecord) (batchSize : Nat)
    (i : Nat) (page : PageRecord) (s : String) (v : Json)
    (hmem : (i, page) ∈ withIdx 1 pages)
    (hout : outcomes i = GenOutcome.ret (some s))
    (hok : extractJson loads s = Except.ok v)
    (hfalsy : v.truthy = false) :
    page.url ∈ (convertAllPages loads outcomes pages batchSize).failedUrls ∧
    (∀ g succ failed record,
      convertStep loads g page (succ, failed) = (succ ++ [record], failed) →
      ∃ v2, v2.truthy = true ∧ setMeta v2 page = some record ∧
        Json.lookup record "_metadata" = some (metaObj page)) := by
  have hpp : processPage loads (outcomes i) page = none := by
    rw [hout]
    simp only [processPage]
    cases hs : s == "" with
    | true =>
      simp only [convertPageToStructuredData, hs]
      rfl
    | false =>
      simp only [convertPageToStructuredData, hs, hok]
      rw [if_neg Bool.false_ne_true]
      dsimp only
      rw [hfalsy]
      rw [if_neg Bool.false_ne_true]
  constructor
  · have hchar : (convertAllPages loads outcomes pages batchSize).failedUrls =
        convFail loads outcomes 1 pages := by
      unfold convertAllPages
      rw [convertAllPagesAux_spec]
      exact List.nil_append _
    rw [hchar, convFail_eq_filterMap]
    refine List.mem_filterMap.mpr ⟨(i, page), hmem, ?_⟩
    rw [hpp]
  · intro g succ failed record hstep
    rw [convertStep_eq] at hstep
    cases hpq : processPage loads g page with
    | none =>
      rw [hpq] at hstep
      dsimp only at hstep
      obtain ⟨h1, h2⟩ := Prod.mk.inj hstep
      have hlx := congrArg List.length h1
      rw [List.length_append, List.length_cons, List.length_nil] at hlx
      omega
    | some record2 =>
      rw [hpq] at hstep
      dsimp only at hstep
      obtain ⟨h1, h2⟩ := Prod.mk.inj hstep
      have hrec : record2 = record := by
        have := List.append_cancel_left h1
        exact List.singleton_inj.mp this
      subst hrec
      unfold processPage at hpq
      cases g with
      | raised => cases hpq
      | ret resp =>
        dsimp only at hpq
        cases hcp : convertPageToStructuredData loads resp with
        | none => rw [hcp] at hpq; cases hpq
        | some structured =>
          rw [hcp] at hpq
          dsimp only at hpq
          cases htr : structured.truthy with
          | false => rw [htr] at hpq; simp at hpq
          | true =>
            rw [htr] at hpq
            rw [if_pos rfl] at hpq
            refine ⟨structured, htr, hpq, ?_⟩
            cases structured with
            | obj fields =>
              simp only [setMeta] at hpq
              cases Option.some.inj hpq
              rw [show Json.lookup (Json.obj (objSet fields "_metadata" (metaObj page)))
                  "_metadata" =
                lookupFields (objSet fields "_metadata" (metaObj page)) "_metadata" from rfl]
              exact lookupFields_objSet "_metadata" (metaObj page) fields
            | null => simp [setMeta] at hpq
            | bool b => simp [setMeta] at hpq
            | num n => simp [setMeta] at hpq
            | str s2 => simp [setMeta] at hpq
            | arr elems => simp [setMeta] at hpq

theorem falsy_decode_failed_witness :
    ((1, samplePage "u1" []) ∈ withIdx 1 [samplePage "u1" []]) ∧
    ((fun _ => GenOutcome.ret (some "null")) 1 = GenOutcome.ret (some "null")) ∧
    (extractJson sampleLoads "null" = Except.ok Json.null) ∧
    (Json.null.truthy = false) ∧
    ((samplePage "u1" []).url ∈
      (convertAllPages sampleLoads (fun _ => GenOutcome.ret (some "null"))
        [samplePage "u1" []] 10).failedUrls ∧
    (∀ g succ failed record,
      convertStep sampleLoads g (samplePage "u1" []) (succ, failed) =
        (succ ++ [record], failed) →
      ∃ v2, v2.truthy = true ∧ setMeta v2 (samplePage "u1" []) = some record ∧
        Json.lookup record "_metadata" = some (metaObj (samplePage "u1" [])))) :=
  ⟨by decide, rfl, rfl, by decide,
    falsy_decode_failed sampleLoads (fun _ => GenOutcome.ret (some "null"))
      [samplePage "u1" []] 10 1 (samplePage "u1" []) "null" Json.null
      (by decide) rfl rfl (by decide)⟩

/-- C7: schema-inference fallback.  `analyze_data_structure` is a total
function of the provider response: when the text generator returns no
output (`None` or the empty string) it returns — rather than raising —
the fixed empty analysis object with `content_type` `unknown`, empty
`entities`, empty `schema` map, empty `indexes`, and `notes`
`Analysis failed`; and when the output fails JSON decoding after fence
stripping it returns the same empty analysis with the decode error
message in `notes`. -/
theorem schema_inference_fallback (loads : String → Except String Json) :
    analyzeDataStructure loads none =
      Json.obj [("content_type", Json.str "unknown"), ("entities", Json.arr []),
                ("schema", Json.obj []), ("indexes", Json.arr []),
                ("notes", Json.str "Analysis failed")] ∧
    analyzeDataStructure loads (some "") =
      Json.obj [("content_type", Json.str "unknown"), ("entities", Json.arr []),
                ("schema", Json.obj []), ("indexes", Json.arr []),
                ("notes", Json.str "Analysis failed")] ∧
    (∀ s e, s ≠ "" → extractJson loads s = Except.error e →
      analyzeDataStructure loads (some s) =
        Json.obj [("content_type", Json.str "unknown"), ("entities", Json.arr []),
                  ("schema", Json.obj []), ("indexes", Json.arr []),
                  ("notes", Json.str ("Failed to parse analysis: " ++ e))]) := by
  refine ⟨rfl, rfl, ?_⟩
  intro s e hne hx
  simp only [analyzeDataStructure]
  rw [if_neg (by simpa using hne)]
  rw [hx]

theorem schema_inference_fallback_witness :
    analyzeDataStructure (fun _ => Except.error "boom") none =
      Json.obj [("content_type", Json.str "unknown"), ("entities", Json.arr []),
                ("schema", Json.obj []), ("indexes", Json.arr []),
                ("notes", Json.str "Analysis failed")] ∧
    ("x" ≠ "") ∧
    (extractJson (fun _ => Except.error "boom") "x" = Except.error "boom") ∧
    analyzeDataStructure (fun _ => Except.error "boom") (some "x") =
      Json.obj [("content_type", Json.str "unknown"), ("entities", Json.arr []),
                ("schema", Json.obj []), ("indexes", Json.arr []),
                ("notes", Json.str ("Failed to parse analysis: " ++ "boom"))] :=
  ⟨(schema_inference_fallback (fun _ => Except.error "boom")).1, by decide, rfl,
    (schema_inference_fallback (fun _ => Except.error "boom")).2.2 "x" "boom"
      (by decide) rfl⟩

/-- C5 counterexample: a malformed externally-supplied `--schema` file
does NOT make the run fail.  With a valid provider configuration and a
schema file whose JSON decoding raised, the initialization phase of
`convert_to_json` completes successfully and proceeds with the
automatically inferred analysis — the `json.JSONDecodeError` is caught
and answered with a fallback, not re-raised. -/
theorem malformed_schema_fallback_counterexample :
    convertToJsonInit "gemini" (some "key") (fun _ => none)
      (Json.obj [("schema", Json.obj [("f", Json.str "field")])])
      (SchemaFileState.malformed "Expecting value") =
    Except.ok (Json.obj [("schema", Json.obj [("f", Json.str "field")])]) := rfl

/-- C5 (amended): a missing credential or an unknown provider name is
fatal at initialization — `AIDataConverter` construction raises a
`ValueError` and the run does not start.  A malformed (or missing)
externally-supplied `--schema` file, however, is NOT fatal: the error is
reported and the pipeline falls back to automatic schema inference and
proceeds with the run. -/
theorem config_error_init_amended :
    (∀ apiKeyArg env, pyStrFalsy (pyStrOr apiKeyArg (env "GOOGLE_API_KEY")) = true →
      initProvider "gemini" apiKeyArg env =
        Except.error "GOOGLE_API_KEY environment variable not set") ∧
    (∀ apiKeyArg env, pyStrFalsy (pyStrOr apiKeyArg (env "ANTHROPIC_API_KEY")) = true →
      initProvider "claude" apiKeyArg env =
        Except.error "ANTHROPIC_API_KEY environment variable not set") ∧
    (∀ apiKeyArg env, pyStrFalsy (pyStrOr apiKeyArg (env "OPENAI_API_KEY")) = true →
      initProvider "openai" apiKeyArg env =
        Except.error "OPENAI_API_KEY environment variable not set") ∧
    (∀ apiKeyArg env, pyStrFalsy (pyStrOr apiKeyArg (env "XAI_API_KEY")) = true →
      initProvider "grok" apiKeyArg env =
        Except.error "XAI_API_KEY environment variable not set") ∧
    (∀ name apiKeyArg env,
      pyLower name ∉ (["gemini", "claude", "openai", "grok"] : List String) →
      initProvider name apiKeyArg env =
        Except.error ("Unknown provider: " ++ name ++
          ". Use gemini, claude, openai, or grok")) ∧
    (∀ name apiKeyArg env autoAnalysis e p,
      initProvider name apiKeyArg env = Except.ok p →
      convertToJsonInit name apiKeyArg env autoAnalysis (SchemaFileState.malformed e) =
        Except.ok autoAnalysis) := by
  refine ⟨?_, ?_, ?_, ?_, ?_, ?_⟩
  · intro apiKeyArg env hf
    simp only [initProvider]
    have h1 : (pyLower "gemini" == "gemini") = true := by decide
    rw [if_pos h1, if_pos hf]
  · intro apiKeyArg env hf
    simp only [initProvider]
    have h1 : ¬((pyLower "claude" == "gemini") = true) := by decide
    have h2 : (pyLower "claude" == "claude") = true := by decide
    rw [if_neg h1, if_pos h2, if_pos hf]
  · intro apiKeyArg env hf
    simp only [initProvider]
    have h1 : ¬((pyLower "openai" == "gemini") = true) := by decide
    have h2 : ¬((pyLower "openai" == "claude") = true) := by decide
    have h3 : (pyLower "openai" == "openai") = true := by decide
    rw [if_neg h1, if_neg h2, if_pos h3, if_pos hf]
  · intro apiKeyArg env hf
    simp only [initProvider]
    have h1 : ¬((pyLower "grok" == "gemini") = true) := by decide
    have h2 : ¬((pyLower "grok" == "claude") = true) := by decide
    have h3 : ¬((pyLower "grok" == "openai") = true) := by decide
    have h4 : (pyLower "grok" == "grok") = true := by decide
    rw [if_neg h1, if_neg h2, if_neg h3, if_pos h4, if_pos hf]
  · intro name apiKeyArg env hn
    simp only [initProvider]
    rw [if_neg ?h1, if_neg ?h2, if_neg ?h3, if_neg ?h4]
    case h1 =>
      intro hc
      exact hn (by rw [show pyLower name = "gemini" from by simpa using hc]; decide)
    case h2 =>
      intro hc
      exact hn (by rw [show pyLower name = "claude" from by simpa using hc]; decide)
    case h3 =>
      intro hc
      exact hn (by rw [show pyLower name = "openai" from by simpa using hc]; decide)
    case h4 =>
      intro hc
      exact hn (by rw [show pyLower name = "grok" from by simpa using hc]; decide)
  · intro name apiKeyArg env autoAnalysis e p hp
    simp only [convertToJsonInit]
    rw [hp]
    rfl

theorem config_error_init_amended_witness :
    (pyStrFalsy (pyStrOr none ((fun _ => none) "GOOGLE_API_KEY")) = true ∧
      initProvider "gemini" none (fun _ => none) =
        Except.error "GOOGLE_API_KEY environment variable not set") ∧
    (pyLower "mistral" ∉ (["gemini", "claude", "openai", "grok"] : List String) ∧
      initProvider "mistral" none (fun _ => none) =
        Except.error ("Unknown provider: " ++ "mistral" ++
          ". Use gemini, claude, openai, or grok")) ∧
    (initProvider "gemini" (some "key") (fun _ => none) = Except.ok "gemini" ∧
      convertToJsonInit "gemini" (some "key") (fun _ => none) Json.null
        (SchemaFileState.malformed "bad") = Except.ok Json.null) :=
  ⟨⟨by decide, config_error_init_amended.1 none (fun _ => none) (by decide)⟩,
   ⟨by decide, config_error_init_amended.2.2.2.2.1 "mistral" none (fun _ => none) (by decide)⟩,
   ⟨rfl, config_error_init_amended.2.2.2.2.2 "gemini" (some "key") (fun _ => none)
      Json.null "bad" "gemini" rfl⟩⟩

/-- C6: fence-stripping round trip.  For every string `j` that is a
clean textual serialization of a JSON value `o` (no surrounding
whitespace, nonempty, decoded by `json.loads` to `o`), wrapping `j` in
a leading ` ```json ` (or bare ` ``` `) fence line and a trailing
` ``` ` line and feeding the result to the converter parse pipeline
(strip fences, then decode) returns exactly `o` — the same value
obtained by decoding the unwrapped `j`. -/
theorem fence_strip_round_trip (loads : String → Except String Json) (j : String) (o : Json)
    (hclean : pyStrip j = j) (hne : j ≠ "") (hj : loads j = Except.ok o) :
    extractJson loads ("```json\n" ++ j ++ "\n```") = Except.ok o ∧
    extractJson loads ("```\n" ++ j ++ "\n```") = Except.ok o := by
  have hc : List.rdropWhile Char.isWhitespace
      (List.dropWhile Char.isWhitespace j.data) = j.data := congrArg String.data hclean
  have hLne : j.data ≠ [] := fun h => hne (congrArg String.mk h)
  have hpre : j.data <+: (j.data.dropWhile Char.isWhitespace) := by
    have hp := List.rdropWhile_prefix Char.isWhitespace
      (List.dropWhile Char.isWhitespace j.data)
    rw [hc] at hp
    exact hp
  have hlen : (j.data.dropWhile Char.isWhitespace).length = j.data.length :=
    Nat.le_antisymm (List.dropWhile_suffix Char.isWhitespace).length_le hpre.length_le
  have hd1 : j.data.dropWhile Char.isWhitespace = j.data :=
    (List.dropWhile_suffix Char.isWhitespace).eq_of_length hlen
  have hd2 : List.rdropWhile Char.isWhitespace j.data = j.data := by
    rw [hd1] at hc
    exact hc
  have hie : j.data.isEmpty = false := by
    cases hL : j.data with
    | nil => exact absurd hL hLne
    | cons c rest => rfl
  have hcore : pyStrip ⟨'\n' :: (j.data ++ ['\n'])⟩ = j := by
    refine congrArg String.mk ?_
    show List.rdropWhile Char.isWhitespace
      (List.dropWhile Char.isWhitespace ('\n' :: (j.data ++ ['\n']))) = j.data
    rw [List.dropWhile_cons, if_pos (by decide)]
    rw [List.dropWhile_append, hd1, hie]
    rw [if_neg Bool.false_ne_true]
    rw [List.rdropWhile_concat_pos Char.isWhitespace j.data '\n' (by decide)]
    exact hd2
  constructor
  · -- wrapped in ```json fences
    have hW : ("```json\n" ++ j ++ "\n```").data =
        '`' :: '`' :: '`' :: 'j' :: 's' :: 'o' :: 'n' :: '\n' ::(j.data ++ ('\n' :: '`' :: '`' :: '`' ::[])) := rfl
    have hWconcat : ("```json\n" ++ j ++ "\n```").data =
        ('`' :: '`' :: '`' :: 'j' :: 's' :: 'o' :: 'n' :: '\n' ::(j.data ++ ('\n' :: '`' :: '`' ::[]))) ++ ['`'] := by
      rw [hW]
      simp
    have hddrop : List.dropWhile Char.isWhitespace ("```json\n" ++ j ++ "\n```").data =
        ("```json\n" ++ j ++ "\n```").data := by
      rw [hW, List.dropWhile_cons, if_neg (by decide)]
    have hrdrop : List.rdropWhile Char.isWhitespace ("```json\n" ++ j ++ "\n```").data =
        ("```json\n" ++ j ++ "\n```").data := by
      rw [hWconcat]
      exact List.rdropWhile_concat_neg Char.isWhitespace _ '`' (by decide)
    have hstripW : pyStrip ("```json\n" ++ j ++ "\n```") = ("```json\n" ++ j ++ "\n```") := by
      refine congrArg String.mk ?_
      show List.rdropWhile Char.isWhitespace
        (List.dropWhile Char.isWhitespace ("```json\n" ++ j ++ "\n```").data) =
        ("```json\n" ++ j ++ "\n```").data
      rw [hddrop, hrdrop]
    have hsw : pyStartsWith ("```json\n" ++ j ++ "\n```") "```json" = true := rfl
    have hdrop7 : pyDrop ("```json\n" ++ j ++ "\n```") 7 =
        (⟨'\n' :: (j.data ++ ('\n' :: '`' :: '`' :: '`' ::[]))⟩ : String) := rfl
    have hew : pyEndsWith (⟨'\n' :: (j.data ++ ('\n' :: '`' :: '`' :: '`' ::[]))⟩ : String) "```" = true := by
      unfold pyEndsWith
      rw [List.isSuffixOf_iff_suffix]
      exact ⟨'\n' :: (j.data ++ ['\n']), by simp⟩
    have hdropRight : pyDropRight (⟨'\n' :: (j.data ++ ('\n' :: '`' :: '`' :: '`' ::[]))⟩ : String) 3 =
        (⟨'\n' :: (j.data ++ ['\n'])⟩ : String) := by
      refine congrArg String.mk ?_
      show (('\n' :: (j.data ++ ('\n' :: '`' :: '`' :: '`' ::[]))).take
        (('\n' :: (j.data ++ ('\n' :: '`' :: '`' :: '`' ::[]))).length - 3)) = '\n' :: (j.data ++ ['\n'])
      have hsplit : '\n' :: (j.data ++ ('\n' :: '`' :: '`' :: '`' ::[])) =
          ('\n' :: (j.data ++ ['\n'])) ++ ['`','`','`'] := by simp
      rw [hsplit]
      rw [List.length_append]
      rw [show (['`','`','`'] : List Char).length = 3 from rfl]
      rw [Nat.add_sub_cancel]
      exact List.take_left _ _
    have hsf : stripCodeFences ("```json\n" ++ j ++ "\n```") =
        (⟨'\n' :: (j.data ++ ['\n'])⟩ : String) := by
      simp only [stripCodeFences]
      rw [hstripW, hsw]
      rw [if_pos rfl]
      rw [hdrop7, hew]
      rw [if_pos rfl]
      exact hdropRight
    show loads (pyStrip (stripCodeFences ("```json\n" ++ j ++ "\n```"))) = Except.ok o
    rw [hsf, hcore]
    exact hj
  · -- wrapped in bare ``` fences
    have hW : ("```\n" ++ j ++ "\n```").data =
        '`' :: '`' :: '`' :: '\n' ::(j.data ++ ('\n' :: '`' :: '`' :: '`' ::[])) := rfl
    have hWconcat : ("```\n" ++ j ++ "\n```").data =
        ('`' :: '`' :: '`' :: '\n' ::(j.data ++ ('\n' :: '`' :: '`' ::[]))) ++ ['`'] := by
      rw [hW]
      simp
    have hddrop : List.dropWhile Char.isWhitespace ("```\n" ++ j ++ "\n```").data =
        ("```\n" ++ j ++ "\n```").data := by
      rw [hW, List.dropWhile_cons, if_neg (by decide)]
    have hrdrop : List.rdropWhile Char.isWhitespace ("```\n" ++ j ++ "\n```").data =
        ("```\n" ++ j ++ "\n```").data := by
      rw [hWconcat]
      exact List.rdropWhile_concat_neg Char.isWhitespace _ '`' (by decide)
    have hstripW : pyStrip ("```\n" ++ j ++ "\n```") = ("```\n" ++ j ++ "\n```") := by
      refine congrArg String.mk ?_
      show List.rdropWhile Char.isWhitespace
        (List.dropWhile Char.isWhitespace ("```\n" ++ j ++ "\n```").data) =
        ("```\n" ++ j ++ "\n```").data
      rw [hddrop, hrdrop]
    have hsw7 : pyStartsWith ("```\n" ++ j ++ "\n```") "```json" = false := rfl
    have hsw3 : pyStartsWith ("```\n" ++ j ++ "\n```") "```" = true := rfl
    have hdrop3 : pyDrop ("```\n" ++ j ++ "\n```") 3 =
        (⟨'\n' :: (j.data ++ ('\n' :: '`' :: '`' :: '`' ::[]))⟩ : String) := rfl
    have hew : pyEndsWith (⟨'\n' :: (j.data ++ ('\n' :: '`' :: '`' :: '`' ::[]))⟩ : String) "```" = true := by
      unfold pyEndsWith
      rw [List.isSuffixOf_iff_suffix]
      exact ⟨'\n' :: (j.data ++ ['\n']), by simp⟩
    have hdropRight : pyDropRight (⟨'\n' :: (j.data ++ ('\n' :: '`' :: '`' :: '`' ::[]))⟩ : String) 3 =
        (⟨'\n' :: (j.data ++ ['\n'])⟩ : String) := by
      refine congrArg String.mk ?_
      show (('\n' :: (j.data ++ ('\n' :: '`' :: '`' :: '`' ::[]))).take
        (('\n' :: (j.data ++ ('\n' :: '`' :: '`' :: '`' ::[]))).length - 3)) = '\n' :: (j.data ++ ['\n'])
      have hsplit : '\n' :: (j.data ++ ('\n' :: '`' :: '`' :: '`' ::[])) =
          ('\n' :: (j.data ++ ['\n'])) ++ ['`','`','`'] := by simp
      rw [hsplit]
      rw [List.length_append]
      rw [show (['`','`','`'] : List Char).length = 3 from rfl]
      rw [Nat.add_sub_cancel]
      exact List.take_left _ _
    have hsf : stripCodeFences ("```\n" ++ j ++ "\n```") =
        (⟨'\n' :: (j.data ++ ['\n'])⟩ : String) := by
      simp only [stripCodeFences]
      rw [hstripW, hsw7]
      rw [if_neg Bool.false_ne_true]
      rw [hsw3]
      rw [if_pos rfl]
      rw [hdrop3, hew]
      rw [if_pos rfl]
      exact hdropRight
    show loads (pyStrip (stripCodeFences ("```\n" ++ j ++ "\n```"))) = Except.ok o
    rw [hsf, hcore]
    exact hj

theorem fence_strip_round_trip_witness :
    (pyStrip "[1]" = "[1]") ∧
    ("[1]" ≠ "") ∧
    (sampleLoads "[1]" = Except.ok (Json.arr [Json.num 1])) ∧
    (extractJson sampleLoads ("```json\n" ++ "[1]" ++ "\n```") =
      Except.ok (Json.arr [Json.num 1]) ∧
    extractJson sampleLoads ("```\n" ++ "[1]" ++ "\n```") =
      Except.ok (Json.arr [Json.num 1])) :=
  ⟨by decide, by decide, rfl,
    fence_strip_round_trip sampleLoads "[1]" (Json.arr [Json.num 1])
      (by decide) (by decide) rfl⟩
